import Mathlib

/-!
Shallow embedding of the portfolio-api authentication core (NestJS/TypeScript)
and verification of its specification claims.

Sources embedded:
- src/src/auth/auth.service.ts            (AuthService: register/login/refreshTokens/createSession)
- src/src/auth/services/account-lockout.service.ts (AccountLockoutService)
- src/src/auth/services/two-factor.service.ts      (TwoFactorService)
- src/src/auth/services/otp.service.ts             (OtpService, unnamed/part_004)
- src/src/auth/utils/crypto.util.ts                (encrypt/decrypt, AES-256-GCM wrapper)

External primitives (argon2, speakeasy TOTP, Node crypto's AES-GCM core,
Node's randomInt) are not code of this repository; they are modelled as
ideal deterministic functionals: argon2 as a collision-free salted hash,
the AEAD core as a keystream cipher with an injective (unforgeable-MAC)
authentication tag, TOTP as an injective code function of (secret, time
step), and randomness is passed in explicitly as arguments.  The wrapper
code around these primitives is translated statement by statement from the
TypeScript source.
-/

namespace Portfolio

/-- Role enumeration from the Prisma `UserRole` enum. -/
inductive UserRole where
  | OWNER | ADMIN | USER
deriving DecidableEq, Repr

/-- Second-factor type enumeration from the Prisma `TwoFactorType` enum. -/
inductive TwoFactorType where
  | TOTP | EMAIL
deriving DecidableEq, Repr

/-- HTTP-layer error as thrown by the services (NestJS exceptions carry a
status code and a message; `UnauthorizedException` is 401,
`BadRequestException` is 400, `ConflictException` is 409). -/
structure HttpError where
  status : Nat
  message : String
deriving DecidableEq, Repr

/-- Model of an argon2 hash: the salt makes hashing non-deterministic in the
source; the preimage field models the one-way function's fiber (argon2 is
treated as collision-free, so `verify h p` holds exactly when `p` is the
hashed plaintext). -/
structure Argon2Hash where
  salt : Nat
  preimage : String
deriving DecidableEq, Repr

/-- Model of `argon2.verify(hash, plain)`. -/
def argon2Verify (h : Argon2Hash) (plain : String) : Bool :=
  h.preimage == plain

/-- Model of `argon2.hash(plain)` with the random salt made explicit. -/
def argon2Hash (salt : Nat) (plain : String) : Argon2Hash :=
  ⟨salt, plain⟩

/-- Model of a signed JSON web token.  The claims are the payload signed in
`AuthService.generateTokens`; `secretUsed` models the signature (a token
"verifies" under a secret exactly when it was signed with that secret),
`iat`/`exp` are the issued-at/expiry timestamps (seconds). -/
structure Jwt where
  sub : String
  email : String
  username : String
  role : UserRole
  secretUsed : String
  iat : Nat
  exp : Nat
deriving DecidableEq, Repr

/-- Model of `jwtService.signAsync(payload, {secret, expiresIn})` at time
`now` (seconds). -/
def Jwt.sign (sub email username : String) (role : UserRole)
    (secret : String) (expiresIn now : Nat) : Jwt :=
  ⟨sub, email, username, role, secret, now, now + expiresIn⟩

/-- Model of `jwtService.verify(token, {secret})` at time `now`: the
signature must match and the embedded expiry must not have passed
(jsonwebtoken rejects expired tokens). -/
def Jwt.verify (t : Jwt) (secret : String) (now : Nat) : Bool :=
  t.secretUsed == secret && now < t.exp

/-- Ideal model of the RFC-6238 code for a given shared secret and 30-second
time step: speakeasy's HMAC truncation is replaced by an injective code
function, so two distinct (secret, step) pairs never share a code. -/
def totpCode (secret : String) (step : Nat) : String :=
  "totp#" ++ secret ++ "#" ++ Nat.repr step

/-- Model of `speakeasy.totp.verify({secret, token, window})` at time `now`
(seconds): the token is accepted iff it is the code of some step within
`window` steps of the current one. -/
def speakeasyTotpVerify (secret token : String) (now : Nat) (window : Nat) : Bool :=
  (List.range (2 * window + 1)).any fun i =>
    token == totpCode secret (now / 30 - window + i)

/-- Configuration values read through `ConfigService`, with token lifetimes
in seconds and the `*Minutes` values in minutes as in the source env vars. -/
structure Config where
  jwtSecret : String
  jwtRefreshSecret : String
  jwtExpiresIn : Nat
  jwtRefreshExpiresIn : Nat
  twoFactorEncryptionKey : List Char
  maxOTPAttempts : Nat
  maxResendAttempts : Nat
  otpExpiryMinutes : Nat
  twoFactorLockoutMinutes : Nat
  lockoutMaxAttempts : Nat
  lockoutMinutes : Nat
deriving Repr

/-- Numeric value of a digit string (most significant first). -/
def digitsToNat (cs : List Char) : Nat :=
  cs.foldl (fun n c => n * 10 + (c.toNat - 48)) 0

/-- Model of JS `parseInt(s)`: the longest digit prefix, `none` standing
for NaN when the string does not start with a digit. -/
def jsParseInt (s : String) : Option Nat :=
  let ds := s.data.takeWhile Char.isDigit
  if ds.isEmpty then none else some (digitsToNat ds)

/-- Numeric reading of a Redis counter value, as the source's
`v ? parseInt(v) : 0` pattern reads the decimal strings this code stores
(every value written by the embedded code is a decimal numeral; a NaN
parse is read as 0). -/
def redisCount (v : Option String) : Nat :=
  match v with
  | none => 0
  | some s => (jsParseInt s).getD 0

/-- JS truthiness-guarded counter comparison `v && parseInt(v) >= max`:
false when the key is absent or the value parses to NaN. -/
def redisCountAtLeast (v : Option String) (maxA : Nat) : Bool :=
  match v with
  | none => false
  | some s =>
    match jsParseInt s with
    | none => false
    | some n => maxA ≤ n

/-! ## Secret codec (crypto.util.ts)

The wrapper logic — hex encoding of key/IV/tag/ciphertext, the
`iv:authTag:encryptedData` envelope, the split-and-check in `decrypt`, the
32-byte key check performed by `createCipheriv`/`createDecipheriv` — is
translated from the source.  The AES-256-GCM core is modelled ideally: the
ciphertext is the plaintext masked by a key/IV-derived keystream, and the
authentication tag is an injective function of (key, IV, ciphertext),
standing in for the unforgeability of the GCM tag. -/

/-- Hex digit character for a nibble, lower case as Node's
`Buffer.toString('hex')` produces. -/
def hexDigitChar (n : Nat) : Char :=
  if n < 10 then Char.ofNat (48 + n) else Char.ofNat (87 + n)

/-- Hex value of a character, `none` for a non-hex character (checked on
the code point: 0-9, a-f, A-F). -/
def hexDigitVal (c : Char) : Option Nat :=
  let n := c.toNat
  if 48 ≤ n ∧ n ≤ 57 then some (n - 48)
  else if 97 ≤ n ∧ n ≤ 102 then some (n - 87)
  else if 65 ≤ n ∧ n ≤ 70 then some (n - 55)
  else none

/-- Hex encoding of one byte (two characters). -/
def byteToHex (b : Nat) : List Char :=
  [hexDigitChar (b / 16), hexDigitChar (b % 16)]

/-- Hex encoding of a byte string, as `Buffer.toString('hex')`. -/
def bytesToHex (bs : List Nat) : List Char :=
  (bs.map byteToHex).flatten

/-- Hex decoding, as `Buffer.from(str, 'hex')`: parses byte pairs and stops
at the first invalid pair or dangling digit. -/
def hexToBytes : List Char → List Nat
  | c1 :: c2 :: rest =>
    match hexDigitVal c1, hexDigitVal c2 with
    | some h, some l => (16 * h + l) :: hexToBytes rest
    | _, _ => []
  | _ => []

/-- Split of a character list on `':'`, as JS `String.prototype.split(':')`:
always returns at least one (possibly empty) part. -/
def splitOnColon : List Char → List (List Char)
  | [] => [[]]
  | c :: rest =>
    if c = ':' then [] :: splitOnColon rest
    else
      match splitOnColon rest with
      | [] => [[c]]
      | h :: t => (c :: h) :: t

/-- Ideal keystream byte for position `i` under a key and IV. -/
def gcmKeystream (key iv : List Nat) (i : Nat) : Nat :=
  (key.sum + 2 * iv.sum + 3 * i) % 256

/-- Ideal GCM encryption core: masks each plaintext byte with the
keystream, starting at position `i`. -/
def gcmMaskFrom (key iv : List Nat) (i : Nat) : List Nat → List Nat
  | [] => []
  | b :: bs => (b + gcmKeystream key iv i) % 256 :: gcmMaskFrom key iv (i + 1) bs

/-- Ideal GCM decryption core: inverse of `gcmMaskFrom` on byte values. -/
def gcmUnmaskFrom (key iv : List Nat) (i : Nat) : List Nat → List Nat
  | [] => []
  | b :: bs =>
    (b + 256 - gcmKeystream key iv i % 256) % 256 :: gcmUnmaskFrom key iv (i + 1) bs

/-- Injective numeric packing of a byte string (base-257 with digits
shifted by one, so distinct byte strings get distinct numbers). -/
def bytesToNat (bs : List Nat) : Nat :=
  Nat.ofDigits 257 (bs.map (· + 1))

/-- Ideal GCM authentication tag: an injective function of
(key, IV, ciphertext) rendered as a nonempty byte string, standing in for
the unforgeable 16-byte GCM tag. -/
def gcmTag (key iv ct : List Nat) : List Nat :=
  Nat.digits 256 (Nat.pair (Nat.pair (bytesToNat key) (bytesToNat iv)) (bytesToNat ct) + 1)

/-- Embedding of `encrypt(text, encryptionKey)` from crypto.util.ts with
the random IV made explicit.  The key is hex-decoded
(`Buffer.from(encryptionKey, 'hex')`); `createCipheriv('aes-256-gcm', ...)`
rejects keys that are not 32 bytes; the result is the
`iv:authTag:encryptedData` envelope, each part hex-encoded.  The plaintext
is taken as its UTF-8 byte string. -/
def encrypt (textBytes : List Nat) (encryptionKey : List Char) (ivBytes : List Nat) :
    Except String (List Char) :=
  let key := hexToBytes encryptionKey
  if key.length ≠ 32 then .error "Invalid key length"
  else
    let ct := gcmMaskFrom key ivBytes 0 textBytes
    .ok (bytesToHex ivBytes ++ (':' :: (bytesToHex (gcmTag key ivBytes ct) ++ (':' :: bytesToHex ct))))

/-- Embedding of `decrypt(encryptedText, encryptionKey)` from
crypto.util.ts: split the envelope on `':'` and take the first three parts
(`const [ivHex, authTagHex, encrypted] = encryptedText.split(':')`), fail
with the format error if any part is missing or empty (JS falsiness), then
hex-decode, check the key length (`createDecipheriv`), and authenticate:
`decipher.final()` throws when the tag does not verify. -/
def decrypt (encryptedText : List Char) (encryptionKey : List Char) :
    Except String (List Nat) :=
  let key := hexToBytes encryptionKey
  let parts := splitOnColon encryptedText
  let ivHex := parts.getD 0 []
  let authTagHex := parts.getD 1 []
  let encrypted := parts.getD 2 []
  if ivHex = [] ∨ authTagHex = [] ∨ encrypted = [] then
    .error "Invalid encrypted text format"
  else
    let iv := hexToBytes ivHex
    let authTag := hexToBytes authTagHex
    if key.length ≠ 32 then .error "Invalid key length"
    else
      let ct := hexToBytes encrypted
      if authTag = gcmTag key iv ct then .ok (gcmUnmaskFrom key iv 0 ct)
      else .error "Unsupported state or unable to authenticate data"

/-- ASCII bytes of a string (the TOTP secrets handled by the services are
base32 strings, so this matches their UTF-8 bytes). -/
def strBytes (s : String) : List Nat :=
  s.data.map (fun c => c.toNat % 256)

/-- Inverse of `strBytes` on byte values. -/
def bytesToStr (bs : List Nat) : String :=
  ⟨bs.map (fun b => Char.ofNat (b % 256))⟩

/-! ## Cache (RedisService) and data model (Prisma rows) -/

/-- Redis key-value store with per-key absolute expiry time (seconds):
entries are (key, value, expiresAt). -/
abbrev Redis := List (String × String × Nat)

/-- Model of `RedisService.get(key)` at time `now`: an expired entry is
absent. -/
def Redis.get (r : Redis) (now : Nat) (key : String) : Option String :=
  match r.find? (fun e => e.1 == key && now < e.2.2) with
  | none => none
  | some e => some e.2.1

/-- Model of `RedisService.set(key, value, ttlSeconds)` at time `now`. -/
def Redis.set (r : Redis) (now : Nat) (key value : String) (ttl : Nat) : Redis :=
  (key, value, now + ttl) :: r.filter (fun e => !(e.1 == key))

/-- Model of `RedisService.del(key)`. -/
def Redis.del (r : Redis) (key : String) : Redis :=
  r.filter (fun e => !(e.1 == key))

/-- Model of `RedisService.ttl(key)` at time `now` (seconds remaining). -/
def Redis.ttl (r : Redis) (now : Nat) (key : String) : Nat :=
  match r.find? (fun e => e.1 == key && now < e.2.2) with
  | none => 0
  | some e => e.2.2 - now

/-- Prisma `User` row (fields used by the auth core). -/
structure User where
  id : String
  name : String
  username : String
  email : String
  role : UserRole
deriving DecidableEq, Repr

/-- Prisma `Account` row: the credential owned by one user. -/
structure Account where
  id : String
  userId : String
  passwordHash : Argon2Hash
  lastLoginAt : Option Nat
deriving DecidableEq, Repr

/-- Prisma `TwoFactorAuth` row, composite-unique on (userId, type).  The
`secret` holds the crypto.util envelope for TOTP rows and the placeholder
string for EMAIL rows; `recoveryCodes` is the stored argon2 hash array. -/
structure TwoFactorAuth where
  userId : String
  type : TwoFactorType
  secret : List Char
  enabled : Bool
  recoveryCodes : List Argon2Hash
deriving DecidableEq, Repr

/-- Prisma `Session` row backing a refresh token. -/
structure Session where
  id : Nat
  userId : String
  token : Jwt
  expiresAt : Nat
deriving DecidableEq, Repr

/-- Prisma `EmailOTP` row: one hashed email OTP challenge. -/
structure EmailOTP where
  id : Nat
  userId : String
  otpHash : Argon2Hash
  attempts : Nat
  expiresAt : Nat
  createdAt : Nat
deriving DecidableEq, Repr

/-- Prisma `LoginAttempt` row, append-only. -/
structure LoginAttempt where
  identifier : String
  ipAddress : Option String
  success : Bool
deriving DecidableEq, Repr

/-- Prisma `AuditLog` row appended by `AuditLogService.log`. -/
structure AuditLog where
  userId : String
  action : String
  method : Option String
  success : Bool
  ipAddress : Option String
deriving DecidableEq, Repr

/-- Relational store contents. -/
structure Db where
  users : List User
  accounts : List Account
  twoFactorAuths : List TwoFactorAuth
  sessions : List Session
  emailOTPs : List EmailOTP
  loginAttempts : List LoginAttempt
  auditLogs : List AuditLog
deriving DecidableEq, Repr

/-- Whole system state: database, cache, outbox of sent mails
(recipient, payload) and a fresh-id counter for created rows. -/
structure Sys where
  db : Db
  redis : Redis
  sentMails : List (String × String)
  nextId : Nat
deriving Repr

/-- Lookup of `prisma.user.findFirst({where: {OR: [{email}, {username}]}})`. -/
def Db.findUserByIdentifier (db : Db) (identifier : String) : Option User :=
  db.users.find? (fun u => u.email == identifier || u.username == identifier)

/-- Lookup of the `account` relation included with a user. -/
def Db.accountOf (db : Db) (userId : String) : Option Account :=
  db.accounts.find? (fun a => a.userId == userId)

/-- Lookup of the `twoFactorAuths` relation included with a user. -/
def Db.twoFactorAuthsOf (db : Db) (userId : String) : List TwoFactorAuth :=
  db.twoFactorAuths.filter (fun a => a.userId == userId)

/-- Lookup of `prisma.twoFactorAuth.findUnique({where: {userId_type}})`. -/
def Db.findTwoFactorAuth (db : Db) (userId : String) (t : TwoFactorType) :
    Option TwoFactorAuth :=
  db.twoFactorAuths.find? (fun a => a.userId == userId && a.type == t)

/-! ## Error constants (NestJS exceptions thrown by the services) -/

/-- `UnauthorizedException('Invalid credentials')` from `AuthService.login`. -/
def invalidCredentialsE : HttpError := ⟨401, "Invalid credentials"⟩

/-- `UnauthorizedException('Invalid two-factor code')` from `AuthService.login`. -/
def invalidTwoFactorCodeE : HttpError := ⟨401, "Invalid two-factor code"⟩

/-- `UnauthorizedException` thrown by `OtpService.verifyOTP` on the attempt quota. -/
def tooManyAttemptsE : HttpError :=
  ⟨401, "Too many verification attempts. Please request a new OTP."⟩

/-- `BadRequestException` thrown by `OtpService.verifyOTP` when no live challenge exists. -/
def otpNotFoundE : HttpError := ⟨400, "OTP expired or not found"⟩

/-- `UnauthorizedException('Invalid OTP')` from `OtpService.verifyOTP`. -/
def invalidOTPE : HttpError := ⟨401, "Invalid OTP"⟩

/-- `BadRequestException` thrown by `OtpService.generateAndSendOTP` on the resend quota. -/
def rateLimitedE : HttpError := ⟨400, "Too many OTP requests. Please try again later."⟩

/-- `UnauthorizedException('Invalid refresh token')` from `AuthService.refreshTokens`. -/
def invalidRefreshTokenE : HttpError := ⟨401, "Invalid refresh token"⟩

/-! ## AccountLockoutService (account-lockout.service.ts) -/

namespace AccountLockoutService

/-- Embedding of `lockAccount(identifier, durationMinutes, userEmail?, userName?)`:
sets the lock flag with the lockout TTL and sends the alert mail when both
email and name are supplied. -/
def lockAccount (identifier : String) (durationMinutes : Nat)
    (userEmail userName : Option String) (now : Nat) (sys : Sys) : Sys :=
  let lockKey := "lockout:locked:" ++ identifier
  let sys := { sys with redis := sys.redis.set now lockKey "locked" (durationMinutes * 60) }
  match userEmail, userName with
  | some e, some _ => { sys with sentMails := sys.sentMails ++ [(e, "account-locked")] }
  | _, _ => sys

/-- Embedding of `recordFailedAttempt(identifier, ipAddress?)`: increments
the per-identifier counter (TTL = lockout window), independently the
per-IP counter, and locks the account when the new count reaches
`lockout.maxAttempts`. -/
def recordFailedAttempt (cfg : Config) (identifier : String)
    (ipAddress : Option String) (now : Nat) (sys : Sys) : Sys :=
  let maxAttempts := cfg.lockoutMaxAttempts
  let lockoutMinutes := cfg.lockoutMinutes
  let identifierKey := "lockout:user:" ++ identifier
  let attempts := sys.redis.get now identifierKey
  let newAttempts := redisCount attempts + 1
  let sys := { sys with
    redis := sys.redis.set now identifierKey (Nat.repr newAttempts) (lockoutMinutes * 60) }
  let sys :=
    match ipAddress with
    | none => sys
    | some ip =>
      let ipKey := "lockout:ip:" ++ ip
      let ipAttempts := sys.redis.get now ipKey
      { sys with
        redis := sys.redis.set now ipKey (Nat.repr (redisCount ipAttempts + 1))
          (lockoutMinutes * 60) }
  if maxAttempts ≤ newAttempts then
    lockAccount identifier lockoutMinutes none none now sys
  else sys

/-- Embedding of `checkLockout(identifier)`: throws the generic lockout
`Error` (with the remaining minutes, ceiling of TTL/60) when the lock flag
is present. -/
def checkLockout (identifier : String) (now : Nat) (sys : Sys) : Except String Unit :=
  let lockKey := "lockout:locked:" ++ identifier
  match sys.redis.get now lockKey with
  | none => .ok ()
  | some _ =>
    let ttl := sys.redis.ttl now lockKey
    let minutesLeft := (ttl + 59) / 60
    .error ("Account is temporarily locked. Try again in " ++
      Nat.repr minutesLeft ++ " minutes.")

/-- Embedding of `resetAttempts(identifier, ipAddress?)`. -/
def resetAttempts (identifier : String) (ipAddress : Option String) (sys : Sys) : Sys :=
  let sys := { sys with redis := sys.redis.del ("lockout:user:" ++ identifier) }
  match ipAddress with
  | none => sys
  | some ip => { sys with redis := sys.redis.del ("lockout:ip:" ++ ip) }

end AccountLockoutService

/-! ## OtpService (otp.service.ts, src/unnamed/part_004) -/

namespace OtpService

/-- Embedding of Node's `crypto.randomInt(min, max)` with the random draw
made explicit: uniform over `[min, max)` — the upper bound is exclusive. -/
def randomInt (minV maxV : Nat) (r : Nat) : Nat :=
  minV + r % (maxV - minV)

/-- Numeric value of the code produced by `generateOTP()`:
`randomInt(100000, 999999)`. -/
def generateOTPNum (r : Nat) : Nat :=
  randomInt 100000 999999 r

/-- Embedding of `generateOTP()`: the decimal string of the drawn value. -/
def generateOTP (r : Nat) : String :=
  Nat.repr (generateOTPNum r)

/-- Embedding of `generateAndSendOTP(userId, userEmail)` with the random
code draw and hash salt explicit: resend-quota check, code generation and
hashing, deletion of prior challenges, creation of the new challenge,
mail dispatch, resend-counter increment. -/
def generateAndSendOTP (cfg : Config) (userId userEmail : String) (now : Nat)
    (otpRand otpSalt : Nat) (sys : Sys) : Except HttpError Unit × Sys :=
  let resendKey := "otp:resend:" ++ userId
  let resendCount := sys.redis.get now resendKey
  if redisCountAtLeast resendCount cfg.maxResendAttempts then
    (.error rateLimitedE, sys)
  else
    let otp := generateOTP otpRand
    let otpHash := argon2Hash otpSalt otp
    let expiresAt := now + cfg.otpExpiryMinutes * 60
    let db := { sys.db with
      emailOTPs := (sys.db.emailOTPs.filter (fun r => !(r.userId == userId))) ++
        [⟨sys.nextId, userId, otpHash, 0, expiresAt, now⟩] }
    let sys := { sys with
      db := db,
      nextId := sys.nextId + 1,
      sentMails := sys.sentMails ++ [(userEmail, otp)] }
    let sys := { sys with
      redis := sys.redis.set now resendKey (Nat.repr (redisCount resendCount + 1))
        (cfg.twoFactorLockoutMinutes * 60) }
    (.ok (), sys)

/-- Lookup of `prisma.emailOTP.findFirst({where: {userId, expiresAt: {gt: now}},
orderBy: {createdAt: 'desc'}})`: the live challenge with the greatest
creation time (first such row on a tie). -/
def findLiveOTP (l : List EmailOTP) (userId : String) (now : Nat) : Option EmailOTP :=
  match l.filter (fun r => r.userId == userId && now < r.expiresAt) with
  | [] => none
  | x :: xs => some (xs.foldl (fun acc b => if acc.createdAt < b.createdAt then b else acc) x)

/-- Embedding of `verifyOTP(userId, otp)`: quota check on the cached
attempt counter, load of the live challenge, unconditional increment of
the challenge's attempt counter, hash comparison, and the success
(delete + clear counters) and failure (cached counter increment) paths. -/
def verifyOTP (cfg : Config) (userId otp : String) (now : Nat) (sys : Sys) :
    Except HttpError Bool × Sys :=
  let attemptKey := "otp:attempts:" ++ userId
  let attempts := sys.redis.get now attemptKey
  if redisCountAtLeast attempts cfg.maxOTPAttempts then
    (.error tooManyAttemptsE, sys)
  else
    match findLiveOTP sys.db.emailOTPs userId now with
    | none => (.error otpNotFoundE, sys)
    | some otpRecord =>
      let db := { sys.db with
        emailOTPs := sys.db.emailOTPs.map (fun r =>
          if r.id == otpRecord.id then { r with attempts := r.attempts + 1 } else r) }
      let sys := { sys with db := db }
      if argon2Verify otpRecord.otpHash otp then
        let sys := { sys with db := { sys.db with
          emailOTPs := sys.db.emailOTPs.filter (fun r => !(r.id == otpRecord.id)) } }
        let sys := { sys with redis :=
          (sys.redis.del attemptKey).del ("otp:resend:" ++ userId) }
        (.ok true, sys)
      else
        let redisNew :=
          sys.redis.set now attemptKey (Nat.repr (redisCount attempts + 1))
            (cfg.twoFactorLockoutMinutes * 60)
        let sys := { sys with redis := redisNew }
        (.error invalidOTPE, sys)

end OtpService

/-! ## TwoFactorService (two-factor.service.ts) -/

namespace TwoFactorService

/-- Embedding of `verifyTOTP(userId, token)`: returns false when no TOTP
row exists or it is disabled; otherwise decrypts the stored secret with
the configured key (a decode failure propagates as a thrown error) and
checks the token with speakeasy (30-second steps, window 2). -/
def verifyTOTP (cfg : Config) (userId token : String) (now : Nat) (db : Db) :
    Except String Bool :=
  match db.findTwoFactorAuth userId .TOTP with
  | none => .ok false
  | some totpAuth =>
    if !totpAuth.enabled then .ok false
    else
      match decrypt totpAuth.secret cfg.twoFactorEncryptionKey with
      | .error e => .error e
      | .ok secretBytes =>
        .ok (speakeasyTotpVerify (bytesToStr secretBytes) token now 2)

/-- Embedding of `verifyRecoveryCode(userId, code)`: false when no enabled
TOTP row or no stored codes; otherwise argon2-compares the candidate
against each stored hash in order and removes the first matching hash
(`filter (c !== hashedCode)`) before returning true. -/
def verifyRecoveryCode (userId code : String) (db : Db) : Bool × Db :=
  match db.findTwoFactorAuth userId .TOTP with
  | none => (false, db)
  | some totpAuth =>
    if !totpAuth.enabled then (false, db)
    else
      match totpAuth.recoveryCodes.find? (fun h => argon2Verify h code) with
      | none => (false, db)
      | some hashedCode =>
        let updatedCodes := totpAuth.recoveryCodes.filter (fun c => !(c == hashedCode))
        let db := { db with
          twoFactorAuths := db.twoFactorAuths.map (fun a =>
            if a.userId == userId && a.type == TwoFactorType.TOTP then
              { a with recoveryCodes := updatedCodes }
            else a) }
        (true, db)

end TwoFactorService

/-! ## AuditLogService (audit-log.service.ts) -/

namespace AuditLogService

/-- Embedding of `AuditLogService.log(data)`: appends one audit row. -/
def log (userId action : String) (method : Option String) (success : Bool)
    (ipAddress : Option String) (sys : Sys) : Sys :=
  { sys with db := { sys.db with
      auditLogs := sys.db.auditLogs ++ [⟨userId, action, method, success, ipAddress⟩] } }

end AuditLogService

/-! ## AuthService (auth.service.ts) -/

/-- Body of the login request (`LoginDto`). -/
structure LoginDto where
  identifier : String
  password : String
  twoFactorToken : Option String
deriving DecidableEq, Repr

/-- Token pair returned by `generateTokens`. -/
structure Tokens where
  accessToken : Jwt
  refreshToken : Jwt
deriving DecidableEq, Repr

/-- Result of `AuthService.login`: either the sanitized user plus tokens,
or a two-factor challenge response. -/
inductive LoginResult where
  | success (user : User) (tokens : Tokens)
  | requires2FA (method : String)
deriving DecidableEq, Repr

namespace AuthService

/-- Embedding of `generateTokens(user)`: signs the access and refresh
tokens over the same payload with the two configured secrets and
lifetimes. -/
def generateTokens (cfg : Config) (user : User) (now : Nat) : Tokens :=
  ⟨Jwt.sign user.id user.email user.username user.role cfg.jwtSecret cfg.jwtExpiresIn now,
   Jwt.sign user.id user.email user.username user.role cfg.jwtRefreshSecret
     cfg.jwtRefreshExpiresIn now⟩

/-- Embedding of `createSession(userId, refreshToken)`: reads
`jwt.refreshExpiresIn` into a local (`expiresIn` in the source, unused)
and stores the session with an expiry hard-coded to 7 days from now
(`expiresAt.setDate(expiresAt.getDate() + 7)`, modelled in seconds). -/
def createSession (cfg : Config) (userId : String) (refreshToken : Jwt) (now : Nat)
    (sys : Sys) : Sys :=
  let _expiresIn := cfg.jwtRefreshExpiresIn
  let expiresAt := now + 7 * 86400
  { sys with
    db := { sys.db with
      sessions := sys.db.sessions ++ [⟨sys.nextId, userId, refreshToken, expiresAt⟩] },
    nextId := sys.nextId + 1 }

/-- Embedding of `logLoginAttempt(identifier, ipAddress, success)`. -/
def logLoginAttempt (identifier : String) (ipAddress : Option String) (success : Bool)
    (sys : Sys) : Sys :=
  { sys with db := { sys.db with
      loginAttempts := sys.db.loginAttempts ++ [⟨identifier, ipAddress, success⟩] } }

/-- Tail of `AuthService.login` (lines 200-222): update the credential's
last-login timestamp, append the successful LoginAttempt row, generate
the token pair, create the session, and return the sanitized user with
the tokens. -/
def finishLogin (cfg : Config) (user : User) (account : Account) (identifier : String)
    (ipAddress : Option String) (now : Nat) (sys : Sys) :
    Except HttpError LoginResult × Sys :=
  let sys := { sys with db := { sys.db with
      accounts := sys.db.accounts.map (fun a =>
        if a.id == account.id then { a with lastLoginAt := some now } else a) } }
  let sys := logLoginAttempt identifier ipAddress true sys
  let tokens := generateTokens cfg user now
  let sys := createSession cfg user.id tokens.refreshToken now sys
  (.ok (.success user tokens), sys)

/-- Embedding of the second-factor verification block of `AuthService.login`
(lines 145-198), entered when a token was submitted and some factor is
enabled: with a TOTP factor, try TOTP then the recovery code (recovery
use is audit-logged); otherwise (`else if`) with an EMAIL factor, call
`OtpService.verifyOTP`, whose thrown errors propagate out of `login`.
Verification failure is audit-logged and yields the invalid-two-factor
error; success is audit-logged and falls through to `finishLogin`. -/
def loginVerify2FA (cfg : Config) (user : User) (account : Account) (dto : LoginDto)
    (token : String) (totpAuth emailAuth : Option TwoFactorAuth)
    (ipAddress : Option String) (now : Nat) (sys : Sys) :
    Except HttpError LoginResult × Sys :=
  match totpAuth with
  | some _ =>
    (match TwoFactorService.verifyTOTP cfg user.id token now sys.db with
     | .error e => (.error ⟨500, e⟩, sys)
     | .ok tOk =>
       if tOk then
         let sys := AuditLogService.log user.id "2fa_verified" (some "google") true
           ipAddress sys
         finishLogin cfg user account dto.identifier ipAddress now sys
       else
         match TwoFactorService.verifyRecoveryCode user.id token sys.db with
         | (rOk, db) =>
           let sys := { sys with db := db }
           if rOk then
             let sys := AuditLogService.log user.id "2fa_recovery_code_used" (some "recovery")
               true ipAddress sys
             let sys := AuditLogService.log user.id "2fa_verified" (some "google") true
               ipAddress sys
             finishLogin cfg user account dto.identifier ipAddress now sys
           else
             let sys := AuditLogService.log user.id "2fa_verification_failed" (some "google")
               false ipAddress sys
             (.error invalidTwoFactorCodeE, sys))
  | none =>
    match emailAuth with
    | some _ =>
      (match OtpService.verifyOTP cfg user.id token now sys with
       | (.error e, sys) => (.error e, sys)
       | (.ok verified, sys) =>
         if verified then
           let sys := AuditLogService.log user.id "2fa_verified" (some "email") true
             ipAddress sys
           finishLogin cfg user account dto.identifier ipAddress now sys
         else
           let sys := AuditLogService.log user.id "2fa_verification_failed" (some "email")
             false ipAddress sys
           (.error invalidTwoFactorCodeE, sys))
    | none =>
      -- unreachable: this block is entered only when some factor is enabled
      finishLogin cfg user account dto.identifier ipAddress now sys

/-- Embedding of `AuthService.login(dto, ipAddress)` at time `now`, with
the OTP engine's random draw and hash salt passed explicitly: user lookup
by identifier, credential check (both failure paths log a failed
LoginAttempt and throw the same invalid-credentials error), enabled-factor
discovery, the challenge branch when no token was submitted (EMAIL takes
priority; the TOTP challenge answers method "google"), the verification
branch when a token was submitted, and the success tail. -/
def login (cfg : Config) (dto : LoginDto) (ipAddress : Option String) (now : Nat)
    (otpRand otpSalt : Nat) (sys : Sys) : Except HttpError LoginResult × Sys :=
  match sys.db.findUserByIdentifier dto.identifier with
  | none => (.error invalidCredentialsE, logLoginAttempt dto.identifier ipAddress false sys)
  | some user =>
    match sys.db.accountOf user.id with
    | none => (.error invalidCredentialsE, logLoginAttempt dto.identifier ipAddress false sys)
    | some account =>
      if !argon2Verify account.passwordHash dto.password then
        (.error invalidCredentialsE, logLoginAttempt dto.identifier ipAddress false sys)
      else
        let twoFactorAuths := sys.db.twoFactorAuthsOf user.id
        let totpAuth := twoFactorAuths.find? (fun a => a.type == TwoFactorType.TOTP && a.enabled)
        let emailAuth := twoFactorAuths.find? (fun a => a.type == TwoFactorType.EMAIL && a.enabled)
        let has2FA := totpAuth.isSome || emailAuth.isSome
        match dto.twoFactorToken with
        | none =>
          if has2FA then
            if emailAuth.isSome then
              match OtpService.generateAndSendOTP cfg user.id user.email now otpRand otpSalt sys with
              | (.error e, sys) => (.error e, sys)
              | (.ok _, sys) => (.ok (.requires2FA "email"), sys)
            else (.ok (.requires2FA "google"), sys)
          else finishLogin cfg user account dto.identifier ipAddress now sys
        | some token =>
          if has2FA then
            loginVerify2FA cfg user account dto token totpAuth emailAuth ipAddress now sys
          else finishLogin cfg user account dto.identifier ipAddress now sys

/-- Body of the registration request (`RegisterDto`, fields used by the core). -/
structure RegisterDto where
  name : String
  username : String
  email : String
  password : String
deriving DecidableEq, Repr

/-- Embedding of `register(dto)` with the argon2 salt and the fresh row ids
made explicit: uniqueness check on email then username (first match picks
the conflict message), password hashing, user+account creation, token
issuance and session creation. -/
def register (cfg : Config) (dto : RegisterDto) (now : Nat) (salt : Nat) (sys : Sys) :
    Except HttpError (User × Tokens) × Sys :=
  match sys.db.users.find? (fun u => u.email == dto.email || u.username == dto.username) with
  | some existingUser =>
    if existingUser.email == dto.email then (.error ⟨409, "Email already exists"⟩, sys)
    else (.error ⟨409, "Username already exists"⟩, sys)
  | none =>
    let passwordHash := argon2Hash salt dto.password
    let user : User := ⟨"user:" ++ Nat.repr sys.nextId, dto.name, dto.username, dto.email,
      UserRole.USER⟩
    let account : Account := ⟨"acct:" ++ Nat.repr sys.nextId, user.id, passwordHash, none⟩
    let sys := { sys with
      db := { sys.db with
        users := sys.db.users ++ [user],
        accounts := sys.db.accounts ++ [account] },
      nextId := sys.nextId + 1 }
    let tokens := generateTokens cfg user now
    let sys := createSession cfg user.id tokens.refreshToken now sys
    (.ok (user, tokens), sys)

/-- Try-block of `refreshTokens(refreshToken)`: verify the token's
signature and embedded expiry, require a live session row bound to the
token and its subject, load the user, generate a fresh pair, delete the
old session row and create the new one. -/
def refreshTokensTry (cfg : Config) (refreshToken : Jwt) (now : Nat) (sys : Sys) :
    Except HttpError Tokens × Sys :=
  if !(refreshToken.verify cfg.jwtRefreshSecret now) then
    (.error invalidRefreshTokenE, sys)
  else
    match sys.db.sessions.find? (fun s =>
        s.token == refreshToken && s.userId == refreshToken.sub && now < s.expiresAt) with
    | none => (.error invalidRefreshTokenE, sys)
    | some session =>
      match sys.db.users.find? (fun u => u.id == refreshToken.sub) with
      | none => (.error ⟨401, "User not found"⟩, sys)
      | some user =>
        let tokens := generateTokens cfg user now
        let sys := { sys with db := { sys.db with
            sessions := sys.db.sessions.filter (fun s => !(s.id == session.id)) } }
        let sys := createSession cfg user.id tokens.refreshToken now sys
        (.ok tokens, sys)

/-- Embedding of `refreshTokens(refreshToken)`: the try-block, with the
catch-block mapping every thrown failure to the invalid-refresh-token
error. -/
def refreshTokens (cfg : Config) (refreshToken : Jwt) (now : Nat) (sys : Sys) :
    Except HttpError Tokens × Sys :=
  match refreshTokensTry cfg refreshToken now sys with
  | (.error _, sys) => (.error invalidRefreshTokenE, sys)
  | ok => ok

end AuthService

/-! ## Lemmas about the secret codec -/

theorem hexDigitVal_hexDigitChar : ∀ n : Nat, n < 16 → hexDigitVal (hexDigitChar n) = some n := by
  decide

theorem hexDigitChar_ne_colon : ∀ n : Nat, n < 16 → hexDigitChar n ≠ ':' := by
  decide

theorem bytesToHex_nil : bytesToHex [] = [] := rfl

theorem bytesToHex_cons (b : Nat) (bs : List Nat) :
    bytesToHex (b :: bs) = byteToHex b ++ bytesToHex bs := rfl

theorem hexToBytes_bytesToHex {bs : List Nat} (h : ∀ b ∈ bs, b < 256) :
    hexToBytes (bytesToHex bs) = bs := by
  induction bs with
  | nil => rfl
  | cons b bs ih =>
    have hb : b < 256 := h b (by simp)
    have h1 : b / 16 < 16 := Nat.div_lt_of_lt_mul (by omega)
    have h2 : b % 16 < 16 := Nat.mod_lt _ (by omega)
    have hbeq : 16 * (b / 16) + b % 16 = b := by omega
    rw [bytesToHex_cons]
    show hexToBytes (hexDigitChar (b / 16) :: hexDigitChar (b % 16) :: bytesToHex bs) = _
    rw [hexToBytes, hexDigitVal_hexDigitChar _ h1, hexDigitVal_hexDigitChar _ h2]
    rw [ih (fun x hx => h x (by simp [hx]))]
    show (16 * (b / 16) + b % 16) :: bs = b :: bs
    rw [hbeq]

theorem bytesToHex_no_colon {bs : List Nat} (h : ∀ b ∈ bs, b < 256) :
    ∀ c ∈ bytesToHex bs, c ≠ ':' := by
  induction bs with
  | nil => simp [bytesToHex_nil]
  | cons b bs ih =>
    have hb : b < 256 := h b (by simp)
    have h1 : b / 16 < 16 := Nat.div_lt_of_lt_mul (by omega)
    have h2 : b % 16 < 16 := Nat.mod_lt _ (by omega)
    intro c hc
    rw [bytesToHex_cons] at hc
    rcases List.mem_append.1 hc with hc | hc
    · simp only [byteToHex, List.mem_cons, List.not_mem_nil, or_false] at hc
      rcases hc with hc | hc
      · rw [hc]; exact hexDigitChar_ne_colon _ h1
      · rw [hc]; exact hexDigitChar_ne_colon _ h2
    · exact ih (fun x hx => h x (by simp [hx])) c hc

theorem bytesToHex_eq_nil_iff {bs : List Nat} : bytesToHex bs = [] ↔ bs = [] := by
  cases bs with
  | nil => simp [bytesToHex_nil]
  | cons b t => simp [bytesToHex_cons, byteToHex]

theorem splitOnColon_no_colon {l : List Char} (h : ∀ c ∈ l, c ≠ ':') :
    splitOnColon l = [l] := by
  induction l with
  | nil => rfl
  | cons c t ih =>
    have hc : c ≠ ':' := h c (by simp)
    rw [splitOnColon, if_neg hc, ih (fun x hx => h x (by simp [hx]))]

theorem splitOnColon_append {a r : List Char} (h : ∀ c ∈ a, c ≠ ':') :
    splitOnColon (a ++ ':' :: r) = a :: splitOnColon r := by
  induction a with
  | nil => simp [splitOnColon]
  | cons c t ih =>
    have hc : c ≠ ':' := h c (by simp)
    have ih' := ih (fun x hx => h x (by simp [hx]))
    rw [List.cons_append, splitOnColon, if_neg hc, ih']

theorem gcmMaskFrom_lt (key iv : List Nat) :
    ∀ (i : Nat) (pt : List Nat), ∀ b ∈ gcmMaskFrom key iv i pt, b < 256 := by
  intro i pt
  induction pt generalizing i with
  | nil => simp [gcmMaskFrom]
  | cons b bs ih =>
    intro x hx
    rw [gcmMaskFrom, List.mem_cons] at hx
    rcases hx with hx | hx
    · rw [hx]; exact Nat.mod_lt _ (by omega)
    · exact ih (i + 1) x hx

theorem gcmMaskFrom_eq_nil_iff (key iv : List Nat) (i : Nat) (pt : List Nat) :
    gcmMaskFrom key iv i pt = [] ↔ pt = [] := by
  cases pt <;> simp [gcmMaskFrom]

theorem gcmUnmaskFrom_gcmMaskFrom (key iv : List Nat) :
    ∀ (i : Nat) (pt : List Nat), (∀ b ∈ pt, b < 256) →
      gcmUnmaskFrom key iv i (gcmMaskFrom key iv i pt) = pt := by
  intro i pt
  induction pt generalizing i with
  | nil => intro _; rfl
  | cons b bs ih =>
    intro h
    have hb : b < 256 := h b (by simp)
    rw [gcmMaskFrom, gcmUnmaskFrom, ih (i + 1) (fun x hx => h x (by simp [hx]))]
    congr 1
    have hk : gcmKeystream key iv i < 256 := Nat.mod_lt _ (by omega)
    have : gcmKeystream key iv i % 256 = gcmKeystream key iv i := Nat.mod_eq_of_lt hk
    rw [this]
    omega

theorem bytesToNat_inj :
    ∀ {xs ys : List Nat}, (∀ b ∈ xs, b < 256) → (∀ b ∈ ys, b < 256) →
      bytesToNat xs = bytesToNat ys → xs = ys := by
  intro xs
  induction xs with
  | nil =>
    intro ys _ hy h
    cases ys with
    | nil => rfl
    | cons y t =>
      exfalso
      unfold bytesToNat at h
      simp only [List.map_nil, Nat.ofDigits_nil, List.map_cons, Nat.ofDigits_cons] at h
      omega
  | cons x xs ih =>
    intro ys hx hy h
    cases ys with
    | nil =>
      exfalso
      unfold bytesToNat at h
      simp only [List.map_nil, Nat.ofDigits_nil, List.map_cons, Nat.ofDigits_cons] at h
      omega
    | cons y t =>
      unfold bytesToNat at h
      simp only [List.map_cons, Nat.ofDigits_cons] at h
      have hxb : x < 256 := hx x (by simp)
      have hyb : y < 256 := hy y (by simp)
      have h1 : x = y := by omega
      have h2 : Nat.ofDigits 257 (xs.map (· + 1)) = Nat.ofDigits 257 (t.map (· + 1)) := by
        omega
      subst h1
      have htail : xs = t :=
        ih (fun b hb => hx b (by simp [hb])) (fun b hb => hy b (by simp [hb])) h2
      rw [htail]

theorem gcmTag_inj {k i c k' i' c' : List Nat}
    (hk : ∀ b ∈ k, b < 256) (hi : ∀ b ∈ i, b < 256) (hc : ∀ b ∈ c, b < 256)
    (hk' : ∀ b ∈ k', b < 256) (hi' : ∀ b ∈ i', b < 256) (hc' : ∀ b ∈ c', b < 256)
    (h : gcmTag k i c = gcmTag k' i' c') : k = k' ∧ i = i' ∧ c = c' := by
  rw [gcmTag, gcmTag] at h
  have h2 := Nat.digits.injective 256 h
  have h3 : Nat.pair (Nat.pair (bytesToNat k) (bytesToNat i)) (bytesToNat c) =
      Nat.pair (Nat.pair (bytesToNat k') (bytesToNat i')) (bytesToNat c') := by omega
  rw [Nat.pair_eq_pair] at h3
  obtain ⟨h4, h5⟩ := h3
  rw [Nat.pair_eq_pair] at h4
  exact ⟨bytesToNat_inj hk hk' h4.1, bytesToNat_inj hi hi' h4.2, bytesToNat_inj hc hc' h5⟩

theorem gcmTag_ne_nil (k i c : List Nat) : gcmTag k i c ≠ [] := by
  rw [gcmTag]
  exact Nat.digits_ne_nil_iff_ne_zero.mpr (Nat.succ_ne_zero _)

theorem gcmTag_lt (k i c : List Nat) : ∀ b ∈ gcmTag k i c, b < 256 := by
  intro b hb
  exact Nat.digits_lt_base (by norm_num) hb

theorem hexDigitVal_lt {c : Char} {n : Nat} (h : hexDigitVal c = some n) : n < 16 := by
  simp only [hexDigitVal] at h
  split at h
  · injection h with h; omega
  · split at h
    · injection h with h; omega
    · split at h
      · injection h with h; omega
      · cases h

theorem hexToBytes_lt : ∀ (l : List Char), ∀ b ∈ hexToBytes l, b < 256
  | [] => by
    intro b hb
    rw [show hexToBytes [] = [] from rfl] at hb
    cases hb
  | [c] => by
    intro b hb
    rw [show hexToBytes [c] = [] from rfl] at hb
    cases hb
  | c1 :: c2 :: rest => by
    intro b hb
    rw [show hexToBytes (c1 :: c2 :: rest) =
        (match hexDigitVal c1, hexDigitVal c2 with
         | some h, some l => (16 * h + l) :: hexToBytes rest
         | _, _ => []) from rfl] at hb
    split at hb
    · rename_i h lo hv1 hv2
      rw [List.mem_cons] at hb
      rcases hb with hb | hb
      · have h1 := hexDigitVal_lt hv1
        have h2 := hexDigitVal_lt hv2
        omega
      · exact hexToBytes_lt rest b hb
    · cases hb

/-- Behaviour of `decrypt` on a well-formed three-part envelope with
nonempty hex parts: the key-length check followed by the tag check. -/
theorem decrypt_envelope (A B C : List Nat) (keyHex : List Char)
    (hA : ∀ b ∈ A, b < 256) (hB : ∀ b ∈ B, b < 256) (hC : ∀ b ∈ C, b < 256)
    (hA0 : A ≠ []) (hB0 : B ≠ []) (hC0 : C ≠ []) :
    decrypt (bytesToHex A ++ (':' :: (bytesToHex B ++ (':' :: bytesToHex C)))) keyHex =
      (if (hexToBytes keyHex).length ≠ 32 then .error "Invalid key length"
       else if B = gcmTag (hexToBytes keyHex) A C then
         .ok (gcmUnmaskFrom (hexToBytes keyHex) A 0 C)
       else .error "Unsupported state or unable to authenticate data") := by
  simp only [decrypt]
  rw [splitOnColon_append (bytesToHex_no_colon hA),
    splitOnColon_append (bytesToHex_no_colon hB),
    splitOnColon_no_colon (bytesToHex_no_colon hC)]
  simp only [List.getD_cons_zero, List.getD_cons_succ]
  rw [if_neg (by
    simp only [bytesToHex_eq_nil_iff]
    push_neg
    exact ⟨hA0, hB0, hC0⟩)]
  rw [hexToBytes_bytesToHex hA, hexToBytes_bytesToHex hB, hexToBytes_bytesToHex hC]

/-- Success shape of `encrypt` under a 32-byte key. -/
theorem encrypt_ok (pt : List Nat) (keyHex : List Char) (iv : List Nat)
    (hkey : (hexToBytes keyHex).length = 32) :
    encrypt pt keyHex iv =
      .ok (bytesToHex iv ++ (':' ::
        (bytesToHex (gcmTag (hexToBytes keyHex) iv (gcmMaskFrom (hexToBytes keyHex) iv 0 pt)) ++
        (':' :: bytesToHex (gcmMaskFrom (hexToBytes keyHex) iv 0 pt))))) := by
  unfold encrypt
  rw [if_neg (by omega)]

/-- Decrypting a genuine envelope with the key that produced it returns
the plaintext, for every nonempty plaintext. -/
theorem decrypt_encrypt_roundtrip (pt iv : List Nat) (keyHex : List Char)
    (hpt : ∀ b ∈ pt, b < 256) (hpt0 : pt ≠ [])
    (hiv : ∀ b ∈ iv, b < 256) (hiv0 : iv ≠ [])
    (hkey : (hexToBytes keyHex).length = 32) :
    decrypt ((encrypt pt keyHex iv).toOption.getD []) keyHex = .ok pt := by
  rw [encrypt_ok pt keyHex iv hkey]
  show decrypt (bytesToHex iv ++ (':' :: (_ ++ (':' :: _)))) keyHex = .ok pt
  rw [decrypt_envelope _ _ _ _ hiv (gcmTag_lt _ _ _) (gcmMaskFrom_lt _ _ _ _) hiv0
    (gcmTag_ne_nil _ _ _) (by rw [Ne, gcmMaskFrom_eq_nil_iff]; exact hpt0)]
  rw [if_neg (by omega), if_pos rfl, gcmUnmaskFrom_gcmMaskFrom _ _ _ _ hpt]

/-- Encrypting the empty plaintext produces an envelope whose data part is
the empty string, which `decrypt` rejects as malformed (JS falsiness of
the empty third part). -/
theorem decrypt_encrypt_empty (iv : List Nat) (keyHex : List Char)
    (hiv : ∀ b ∈ iv, b < 256)
    (hkey : (hexToBytes keyHex).length = 32) :
    decrypt ((encrypt [] keyHex iv).toOption.getD []) keyHex =
      .error "Invalid encrypted text format" := by
  rw [encrypt_ok [] keyHex iv hkey]
  show decrypt (bytesToHex iv ++ (':' :: (bytesToHex (gcmTag _ _ _) ++ (':' :: bytesToHex [])))) keyHex = _
  simp only [decrypt]
  rw [splitOnColon_append (bytesToHex_no_colon hiv),
    splitOnColon_append (bytesToHex_no_colon (gcmTag_lt _ _ _)),
    splitOnColon_no_colon (bytesToHex_no_colon (by intro b hb; cases hb))]
  simp only [List.getD_cons_zero, List.getD_cons_succ]
  rw [if_pos (by right; right; rfl)]

/-! ## Framing lemmas: which operations touch the sessions table -/

theorem sessions_logLoginAttempt (i : String) (ip : Option String) (b : Bool) (sys : Sys) :
    (AuthService.logLoginAttempt i ip b sys).db.sessions = sys.db.sessions := rfl

theorem sessions_auditLog (u a : String) (m : Option String) (s : Bool)
    (ip : Option String) (sys : Sys) :
    (AuditLogService.log u a m s ip sys).db.sessions = sys.db.sessions := rfl

theorem sessions_generateAndSendOTP (cfg : Config) (uid em : String) (now r s : Nat)
    (sys : Sys) :
    ((OtpService.generateAndSendOTP cfg uid em now r s sys).2).db.sessions =
      sys.db.sessions := by
  simp only [OtpService.generateAndSendOTP]
  split <;> rfl

theorem sessions_verifyOTP (cfg : Config) (uid otp : String) (now : Nat) (sys : Sys) :
    ((OtpService.verifyOTP cfg uid otp now sys).2).db.sessions = sys.db.sessions := by
  simp only [OtpService.verifyOTP]
  split
  · rfl
  · split
    · rfl
    · split <;> rfl

theorem sessions_verifyRecoveryCode (uid code : String) (db : Db) :
    ((TwoFactorService.verifyRecoveryCode uid code db).2).sessions = db.sessions := by
  simp only [TwoFactorService.verifyRecoveryCode]
  split
  · rfl
  · split
    · rfl
    · split <;> rfl

theorem sessions_finishLogin (cfg : Config) (u : User) (acc : Account) (idt : String)
    (ip : Option String) (now : Nat) (sys : Sys) :
    ((AuthService.finishLogin cfg u acc idt ip now sys).2).db.sessions =
      sys.db.sessions ++
        [⟨sys.nextId, u.id, (AuthService.generateTokens cfg u now).refreshToken,
          now + 7 * 86400⟩] := rfl

theorem sessions_loginVerify2FA (cfg : Config) (u : User) (acc : Account) (dto : LoginDto)
    (tok : String) (ta ea : Option TwoFactorAuth) (ip : Option String) (now : Nat)
    (sys : Sys) :
    ∀ s ∈ ((AuthService.loginVerify2FA cfg u acc dto tok ta ea ip now sys).2).db.sessions,
      s ∈ sys.db.sessions ∨ s.expiresAt = now + 7 * 86400 := by
  intro s hs
  simp only [AuthService.loginVerify2FA] at hs
  split at hs
  · split at hs
    · simp only at hs
      exact Or.inl hs
    · split at hs
      · rw [sessions_finishLogin, sessions_auditLog] at hs
        simp only [List.mem_append, List.mem_singleton] at hs
        rcases hs with hs | hs
        · exact Or.inl hs
        · right; rw [hs]
      · split at hs
        · simp only [sessions_finishLogin, sessions_auditLog] at hs
          rw [sessions_verifyRecoveryCode] at hs
          simp only [List.mem_append, List.mem_singleton] at hs
          rcases hs with hs | hs
          · exact Or.inl hs
          · right; rw [hs]
        · simp only [sessions_auditLog] at hs
          rw [sessions_verifyRecoveryCode] at hs
          exact Or.inl hs
  · split at hs
    · split at hs
      · rename_i e sys2 heq
        have hkeep := sessions_verifyOTP cfg u.id tok now sys
        rw [heq] at hkeep
        simp only at hkeep hs
        rw [hkeep] at hs
        exact Or.inl hs
      · rename_i verified sys2 heq
        have hkeep := sessions_verifyOTP cfg u.id tok now sys
        rw [heq] at hkeep
        simp only at hkeep
        split at hs
        · rw [sessions_finishLogin, sessions_auditLog, hkeep] at hs
          simp only [List.mem_append, List.mem_singleton] at hs
          rcases hs with hs | hs
          · exact Or.inl hs
          · right; rw [hs]
        · rw [sessions_auditLog, hkeep] at hs
          exact Or.inl hs
    · rw [sessions_finishLogin] at hs
      simp only [List.mem_append, List.mem_singleton] at hs
      rcases hs with hs | hs
      · exact Or.inl hs
      · right; rw [hs]

theorem sessions_createSession (cfg : Config) (uid : String) (tok : Jwt) (now : Nat)
    (sys : Sys) :
    ((AuthService.createSession cfg uid tok now sys).db).sessions =
      sys.db.sessions ++ [⟨sys.nextId, uid, tok, now + 7 * 86400⟩] := rfl

theorem sessions_login (cfg : Config) (dto : LoginDto) (ip : Option String)
    (now r1 r2 : Nat) (sys : Sys) :
    ∀ x ∈ ((AuthService.login cfg dto ip now r1 r2 sys).2).db.sessions,
      x ∈ sys.db.sessions ∨ x.expiresAt = now + 7 * 86400 := by
  intro x hx
  simp only [AuthService.login] at hx
  split at hx
  · rw [sessions_logLoginAttempt] at hx; exact Or.inl hx
  · split at hx
    · rw [sessions_logLoginAttempt] at hx; exact Or.inl hx
    · split at hx
      · rw [sessions_logLoginAttempt] at hx; exact Or.inl hx
      · split at hx
        · split at hx
          · split at hx
            · split at hx
              · rename_i e sys2 heq
                have hk := congrArg (fun p => p.2.db.sessions) heq
                simp only at hk hx
                rw [sessions_generateAndSendOTP] at hk
                rw [← hk] at hx
                exact Or.inl hx
              · rename_i v sys2 heq
                have hk := congrArg (fun p => p.2.db.sessions) heq
                simp only at hk hx
                rw [sessions_generateAndSendOTP] at hk
                rw [← hk] at hx
                exact Or.inl hx
            · simp only at hx
              exact Or.inl hx
          · rw [sessions_finishLogin] at hx
            simp only [List.mem_append, List.mem_singleton] at hx
            rcases hx with hx | hx
            · exact Or.inl hx
            · right; rw [hx]
        · split at hx
          · exact sessions_loginVerify2FA cfg _ _ dto _ _ _ ip now sys x hx
          · rw [sessions_finishLogin] at hx
            simp only [List.mem_append, List.mem_singleton] at hx
            rcases hx with hx | hx
            · exact Or.inl hx
            · right; rw [hx]

theorem sessions_register (cfg : Config) (dto : AuthService.RegisterDto) (now salt : Nat) (sys : Sys) :
    ∀ x ∈ ((AuthService.register cfg dto now salt sys).2).db.sessions,
      x ∈ sys.db.sessions ∨ x.expiresAt = now + 7 * 86400 := by
  intro x hx
  simp only [AuthService.register] at hx
  split at hx
  · split at hx
    · simp only at hx; exact Or.inl hx
    · simp only at hx; exact Or.inl hx
  · rw [sessions_createSession] at hx
    simp only [List.mem_append, List.mem_singleton] at hx
    rcases hx with hx | hx
    · exact Or.inl hx
    · right; rw [hx]

theorem sessions_refreshTokens (cfg : Config) (tok : Jwt) (now : Nat) (sys : Sys) :
    ∀ x ∈ ((AuthService.refreshTokens cfg tok now sys).2).db.sessions,
      x ∈ sys.db.sessions ∨ x.expiresAt = now + 7 * 86400 := by
  have htry : ∀ x ∈ ((AuthService.refreshTokensTry cfg tok now sys).2).db.sessions,
      x ∈ sys.db.sessions ∨ x.expiresAt = now + 7 * 86400 := by
    intro x hx
    simp only [AuthService.refreshTokensTry] at hx
    split at hx
    · simp only at hx; exact Or.inl hx
    · split at hx
      · simp only at hx; exact Or.inl hx
      · split at hx
        · simp only at hx; exact Or.inl hx
        · rw [sessions_createSession] at hx
          simp only [List.mem_append, List.mem_singleton] at hx
          rcases hx with hx | hx
          · exact Or.inl (List.mem_of_mem_filter hx)
          · right; rw [hx]
  intro x hx
  simp only [AuthService.refreshTokens] at hx
  split at hx
  · rename_i e sys2 heq
    have := htry
    rw [heq] at this
    simp only at this hx
    exact this x hx
  · rename_i ok hne
    exact htry x hx

/-- C10: every Session row created by `register`, `login` or
`refreshTokens` carries an expiry of exactly 7 days after creation,
independently of the configured refresh-token lifetime: `createSession`
binds `jwt.refreshExpiresIn` but the stored `expiresAt` is `now + 7 days`
for every configuration, so the created-session set is the same under any
two configurations differing in `jwt.refreshExpiresIn`. -/
theorem createSession_seven_days_ignores_config (cfg cfg2 : Config) (uid : String)
    (tok : Jwt) (now r1 r2 salt : Nat) (sys : Sys) (dto : LoginDto) (rdto : AuthService.RegisterDto)
    (ip : Option String) :
    ((AuthService.createSession cfg uid tok now sys).db).sessions =
      sys.db.sessions ++ [⟨sys.nextId, uid, tok, now + 7 * 86400⟩] ∧
    AuthService.createSession cfg uid tok now sys =
      AuthService.createSession cfg2 uid tok now sys ∧
    (∀ x ∈ ((AuthService.login cfg dto ip now r1 r2 sys).2).db.sessions,
      x ∈ sys.db.sessions ∨ x.expiresAt = now + 7 * 86400) ∧
    (∀ x ∈ ((AuthService.register cfg rdto now salt sys).2).db.sessions,
      x ∈ sys.db.sessions ∨ x.expiresAt = now + 7 * 86400) ∧
    (∀ x ∈ ((AuthService.refreshTokens cfg tok now sys).2).db.sessions,
      x ∈ sys.db.sessions ∨ x.expiresAt = now + 7 * 86400) :=
  ⟨rfl, rfl, sessions_login cfg dto ip now r1 r2 sys,
    sessions_register cfg rdto now salt sys, sessions_refreshTokens cfg tok now sys⟩

/-- C9 counterexample: the value 999999 is never generated, because Node's
`randomInt(min, max)` excludes the upper bound: `randomInt(100000, 999999)`
draws from 100000..999998. -/
theorem generateOTP_never_999999 : ¬ ∃ r : Nat, OtpService.generateOTPNum r = 999999 := by
  rintro ⟨r, h⟩
  unfold OtpService.generateOTPNum OtpService.randomInt at h
  omega

/-- C9 (amended): every generated email OTP value lies in 100000..999998
(a 6-digit decimal number), and every value in that range is a possible
output; 999999 itself is excluded by `randomInt`'s exclusive upper bound. -/
theorem generateOTP_range_and_coverage :
    (∀ r : Nat, 100000 ≤ OtpService.generateOTPNum r ∧ OtpService.generateOTPNum r ≤ 999998) ∧
    (∀ v : Nat, 100000 ≤ v → v ≤ 999998 → ∃ r : Nat, OtpService.generateOTPNum r = v) := by
  constructor
  · intro r
    unfold OtpService.generateOTPNum OtpService.randomInt
    omega
  · intro v h1 h2
    refine ⟨v - 100000, ?_⟩
    unfold OtpService.generateOTPNum OtpService.randomInt
    have : (v - 100000) % (999999 - 100000) = v - 100000 := Nat.mod_eq_of_lt (by omega)
    omega

/-- C9 witness: the amended coverage claim applied at the concrete value
123456. -/
theorem generateOTP_range_and_coverage_witness :
    100000 ≤ 123456 ∧ 123456 ≤ 999998 ∧ ∃ r : Nat, OtpService.generateOTPNum r = 123456 :=
  ⟨by norm_num, by norm_num,
    generateOTP_range_and_coverage.2 123456 (by norm_num) (by norm_num)⟩

/-! ## Concrete fixtures used by closed theorems and witnesses -/

/-- Fixture configuration: defaults of the source env (15m access, 7d
refresh, 5 OTP attempts, 3 resends, 5m OTP expiry, 15m lockout window,
5 max login attempts, 15m lockout). -/
def fxCfg : Config :=
  ⟨"S", "R", 900, 604800, [], 5, 3, 5, 15, 5, 15⟩

/-- Fixture user. -/
def fxUser : User := ⟨"u1", "Alice", "alice", "a@x.com", UserRole.USER⟩

/-- Fixture credential: password "pw". -/
def fxAccount : Account := ⟨"acc1", "u1", ⟨0, "pw"⟩, none⟩

/-- Fixture database: one user with one credential, no second factors. -/
def fxDb : Db := ⟨[fxUser], [fxAccount], [], [], [], [], []⟩

/-- Fixture system state with an empty cache. -/
def fxSys : Sys := ⟨fxDb, [], [], 0⟩

/-- Fixture system state in which the identifier has 5 recorded failed
attempts and the lockout flag is live (both entries expire at 2000,
current time 1000). -/
def fxSysLocked : Sys :=
  ⟨fxDb, [("lockout:user:a@x.com", "5", 2000), ("lockout:locked:a@x.com", "locked", 2000)],
    [], 0⟩

/-- C1 (code bug): with the lockout flag set and the failure counter at the
configured maximum, `AccountLockoutService.checkLockout` would throw the
lockout error — but `AuthService.login` never calls the lockout service,
so a login with correct credentials succeeds in the locked state, and a
failed login does not touch the lockout counters (the cache is returned
unchanged). -/
theorem login_ignores_account_lockout :
    AccountLockoutService.checkLockout "a@x.com" 1000 fxSysLocked =
      .error "Account is temporarily locked. Try again in 17 minutes." ∧
    fxCfg.lockoutMaxAttempts ≤
      redisCount (fxSysLocked.redis.get 1000 "lockout:user:a@x.com") ∧
    (AuthService.login fxCfg ⟨"a@x.com", "pw", none⟩ (some "9.9.9.9") 1000 0 0
        fxSysLocked).1 =
      .ok (.success fxUser (AuthService.generateTokens fxCfg fxUser 1000)) ∧
    ((AuthService.login fxCfg ⟨"a@x.com", "bad", none⟩ (some "9.9.9.9") 1000 0 0
        fxSysLocked).2).redis = fxSysLocked.redis := by
  refine ⟨rfl, by decide, rfl, rfl⟩

/-- C8: a login whose identifier matches no user (or whose user has no
credential row) and a login with an existing identifier but a wrong
password fail with the same error value (status and message), and each
appends exactly one failed LoginAttempt row for the submitted identifier. -/
theorem login_uniform_invalid_credentials
    (cfg : Config) (dto1 dto2 : LoginDto) (ip1 ip2 : Option String)
    (now1 now2 ra1 rb1 ra2 rb2 : Nat) (sysA sysB : Sys)
    (hA : sysA.db.findUserByIdentifier dto1.identifier = none ∨
      ∃ u, sysA.db.findUserByIdentifier dto1.identifier = some u ∧
        sysA.db.accountOf u.id = none)
    (u : User) (acc : Account)
    (hB1 : sysB.db.findUserByIdentifier dto2.identifier = some u)
    (hB2 : sysB.db.accountOf u.id = some acc)
    (hB3 : argon2Verify acc.passwordHash dto2.password = false) :
    AuthService.login cfg dto1 ip1 now1 ra1 rb1 sysA =
      (.error invalidCredentialsE, AuthService.logLoginAttempt dto1.identifier ip1 false sysA) ∧
    AuthService.login cfg dto2 ip2 now2 ra2 rb2 sysB =
      (.error invalidCredentialsE, AuthService.logLoginAttempt dto2.identifier ip2 false sysB) ∧
    (AuthService.logLoginAttempt dto1.identifier ip1 false sysA).db.loginAttempts =
      sysA.db.loginAttempts ++ [⟨dto1.identifier, ip1, false⟩] ∧
    (AuthService.logLoginAttempt dto2.identifier ip2 false sysB).db.loginAttempts =
      sysB.db.loginAttempts ++ [⟨dto2.identifier, ip2, false⟩] := by
  refine ⟨?_, ?_, rfl, rfl⟩
  · rcases hA with hA | ⟨u2, hA1, hA2⟩
    · simp only [AuthService.login, hA]
    · simp only [AuthService.login, hA1, hA2]
  · simp only [AuthService.login, hB1, hB2, hB3, Bool.not_false, if_true]

/-- C8 witness: the uniformity theorem applied to the fixture state, with
the unknown identifier "ghost" and the wrong password "bad" for the
existing identifier. -/
theorem login_uniform_invalid_credentials_witness :
    AuthService.login fxCfg ⟨"ghost", "pw", none⟩ none 5 0 0 fxSys =
      (.error invalidCredentialsE, AuthService.logLoginAttempt "ghost" none false fxSys) ∧
    AuthService.login fxCfg ⟨"a@x.com", "bad", none⟩ none 5 0 0 fxSys =
      (.error invalidCredentialsE, AuthService.logLoginAttempt "a@x.com" none false fxSys) := by
  have h := login_uniform_invalid_credentials fxCfg ⟨"ghost", "pw", none⟩
    ⟨"a@x.com", "bad", none⟩ none none 5 5 0 0 0 0 fxSys fxSys
    (Or.inl (by decide)) fxUser fxAccount (by decide) (by decide) (by decide)
  exact ⟨h.1, h.2.1⟩

/-- Filtering out the updated challenge row commutes with the
attempt-counter increment, since the increment touches only that row. -/
theorem filter_map_incr (l : List EmailOTP) (rid : Nat) :
    ((l.map (fun r => if r.id == rid then { r with attempts := r.attempts + 1 } else r)).filter
      (fun r => !(r.id == rid))) = l.filter (fun r => !(r.id == rid)) := by
  induction l with
  | nil => rfl
  | cons a t ih =>
    by_cases h : a.id = rid
    · simp [List.filter_cons, h] at ih
      simp [List.filter_cons, h, ih]
    · simp [List.filter_cons, h] at ih
      simp [List.filter_cons, h, ih]

/-- C5: full characterization of `OtpService.verifyOTP`.  When the cached
attempt counter has reached `maxOTPAttempts` the call fails with
TooManyAttempts and leaves the state untouched (in particular no challenge
is read or written); otherwise, with no live challenge it fails with the
not-found error; otherwise the live challenge's stored attempt counter is
incremented unconditionally, and the call either fails with InvalidCode
while also incrementing the cached counter (hash mismatch), or deletes the
challenge, clears the attempt and resend counters and returns success
(hash match). -/
theorem verifyOTP_characterization (cfg : Config) (uid otp : String) (now : Nat) (sys : Sys) :
    (redisCountAtLeast (sys.redis.get now ("otp:attempts:" ++ uid)) cfg.maxOTPAttempts = true →
      OtpService.verifyOTP cfg uid otp now sys = (.error tooManyAttemptsE, sys)) ∧
    (redisCountAtLeast (sys.redis.get now ("otp:attempts:" ++ uid)) cfg.maxOTPAttempts = false →
      (OtpService.findLiveOTP sys.db.emailOTPs uid now = none →
        OtpService.verifyOTP cfg uid otp now sys = (.error otpNotFoundE, sys)) ∧
      (∀ rec : EmailOTP, OtpService.findLiveOTP sys.db.emailOTPs uid now = some rec →
        (argon2Verify rec.otpHash otp = false →
          OtpService.verifyOTP cfg uid otp now sys =
            (.error invalidOTPE,
              { sys with
                db := { sys.db with
                  emailOTPs := sys.db.emailOTPs.map (fun r =>
                    if r.id == rec.id then { r with attempts := r.attempts + 1 } else r) },
                redis := sys.redis.set now ("otp:attempts:" ++ uid)
                  (Nat.repr (redisCount (sys.redis.get now ("otp:attempts:" ++ uid)) + 1))
                  (cfg.twoFactorLockoutMinutes * 60) })) ∧
        (argon2Verify rec.otpHash otp = true →
          OtpService.verifyOTP cfg uid otp now sys =
            (.ok true,
              { sys with
                db := { sys.db with
                  emailOTPs := sys.db.emailOTPs.filter (fun r => !(r.id == rec.id)) },
                redis := (sys.redis.del ("otp:attempts:" ++ uid)).del
                  ("otp:resend:" ++ uid) })))) := by
  refine ⟨?_, ?_⟩
  · intro h
    simp only [OtpService.verifyOTP, h, if_true]
  · intro h
    refine ⟨?_, ?_⟩
    · intro hnone
      simp only [OtpService.verifyOTP, h, Bool.false_eq_true, if_false, hnone]
    · intro rec hrec
      refine ⟨?_, ?_⟩
      · intro hmiss
        simp only [OtpService.verifyOTP, h, Bool.false_eq_true, if_false, hrec, hmiss]
      · intro hmatch
        simp only [OtpService.verifyOTP, h, Bool.false_eq_true, if_false, hrec, hmatch,
          if_true, filter_map_incr]

/-- Fixture challenge row: id 10, hashed code "123456", live until 2000. -/
def fxOtp : EmailOTP := ⟨10, "u1", ⟨1, "123456"⟩, 0, 2000, 900⟩

/-- Fixture state with the live challenge `fxOtp` and an empty cache. -/
def fxSysOtp : Sys := ⟨{ fxDb with emailOTPs := [fxOtp] }, [], [], 11⟩

/-- C5 witness: the characterization applied at the fixture state on the
mismatch branch (candidate "999999" against the stored hash of "123456"). -/
theorem verifyOTP_characterization_witness :
    (OtpService.verifyOTP fxCfg "u1" "999999" 1000 fxSysOtp).1 = .error invalidOTPE :=
  congrArg Prod.fst
    ((((verifyOTP_characterization fxCfg "u1" "999999" 1000 fxSysOtp).2 (by decide)).2
      fxOtp (by decide)).1 (by decide))

/-- C4: token refresh rotates sessions.  Under a verifying token, a unique
live session row bound to it, an existing user, and freshness of the newly
issued token, one `refreshTokens` call succeeds, no remaining session row
holds the old token, and exactly one session row holds the new refresh
token; and `refreshTokens` fails with the invalid-refresh-token error
whenever the token's signature/expiry check fails or no live session row
matches the token. -/
theorem refreshTokens_rotates
    (cfg : Config) (tok : Jwt) (now : Nat) (sys : Sys) (sess : Session) (user : User)
    (hver : tok.verify cfg.jwtRefreshSecret now = true)
    (hfind : sys.db.sessions.find? (fun s =>
        s.token == tok && s.userId == tok.sub && now < s.expiresAt) = some sess)
    (huser : sys.db.users.find? (fun u => u.id == tok.sub) = some user)
    (huniq : ∀ s ∈ sys.db.sessions, s.token = tok → s.id = sess.id)
    (hfresh : ∀ s ∈ sys.db.sessions,
        s.token ≠ (AuthService.generateTokens cfg user now).refreshToken) :
    (AuthService.refreshTokens cfg tok now sys).1 =
      .ok (AuthService.generateTokens cfg user now) ∧
    (∀ s ∈ ((AuthService.refreshTokens cfg tok now sys).2).db.sessions, s.token ≠ tok) ∧
    (((AuthService.refreshTokens cfg tok now sys).2).db.sessions.filter
        (fun s => s.token == (AuthService.generateTokens cfg user now).refreshToken)).length
      = 1 ∧
    (∀ (tok2 : Jwt) (sys2 : Sys), tok2.verify cfg.jwtRefreshSecret now = false →
      AuthService.refreshTokens cfg tok2 now sys2 = (.error invalidRefreshTokenE, sys2)) ∧
    (∀ (tok2 : Jwt) (sys2 : Sys), sys2.db.sessions.find? (fun s =>
        s.token == tok2 && s.userId == tok2.sub && now < s.expiresAt) = none →
      AuthService.refreshTokens cfg tok2 now sys2 = (.error invalidRefreshTokenE, sys2)) := by
  have hsessmem : sess ∈ sys.db.sessions := List.mem_of_find?_eq_some hfind
  have hsesstok : sess.token = tok := by
    have := List.find?_some hfind
    simp only [Bool.and_eq_true, beq_iff_eq, decide_eq_true_eq] at this
    exact this.1.1
  have htokne : (AuthService.generateTokens cfg user now).refreshToken ≠ tok := by
    intro h
    exact hfresh sess hsessmem (hsesstok.trans h.symm)
  have htry : AuthService.refreshTokensTry cfg tok now sys =
      (.ok (AuthService.generateTokens cfg user now),
        AuthService.createSession cfg user.id
          (AuthService.generateTokens cfg user now).refreshToken now
          { sys with db := { sys.db with
              sessions := sys.db.sessions.filter (fun s => !(s.id == sess.id)) } }) := by
    simp only [AuthService.refreshTokensTry, hver, Bool.not_true, Bool.false_eq_true,
      if_false, hfind, huser]
  have hres : AuthService.refreshTokens cfg tok now sys =
      (.ok (AuthService.generateTokens cfg user now),
        AuthService.createSession cfg user.id
          (AuthService.generateTokens cfg user now).refreshToken now
          { sys with db := { sys.db with
              sessions := sys.db.sessions.filter (fun s => !(s.id == sess.id)) } }) := by
    simp only [AuthService.refreshTokens, htry]
  refine ⟨by rw [hres], ?_, ?_, ?_, ?_⟩
  · intro s hs
    rw [hres, sessions_createSession] at hs
    simp only [List.mem_append, List.mem_singleton, List.mem_filter] at hs
    rcases hs with ⟨hmem, hid⟩ | hnew
    · intro htok
      have := huniq s hmem htok
      simp [this] at hid
    · rw [hnew]
      exact htokne
  · rw [hres, sessions_createSession, List.filter_append]
    have h1 : (sys.db.sessions.filter (fun s => !(s.id == sess.id))).filter
        (fun s => s.token == (AuthService.generateTokens cfg user now).refreshToken) = [] := by
      rw [List.filter_filter]
      apply List.filter_eq_nil_iff.mpr
      intro s hsm
      have := hfresh s hsm
      simp [this]
    rw [h1]
    simp
  · intro tok2 sys2 hv
    simp only [AuthService.refreshTokens, AuthService.refreshTokensTry, hv, Bool.not_false,
      if_true]
  · intro tok2 sys2 hn
    by_cases hv : tok2.verify cfg.jwtRefreshSecret now = true
    · simp only [AuthService.refreshTokens, AuthService.refreshTokensTry, hv, Bool.not_true,
        Bool.false_eq_true, if_false, hn]
    · rw [Bool.not_eq_true] at hv
      simp only [AuthService.refreshTokens, AuthService.refreshTokensTry, hv, Bool.not_false,
        if_true]

/-- Fixture refresh token: signed for user u1 with the refresh secret at
time 0, valid for 7 days. -/
def fxTok : Jwt := Jwt.sign "u1" "a@x.com" "alice" UserRole.USER "R" 604800 0

/-- Fixture session row binding `fxTok`, live until 2000. -/
def fxSess : Session := ⟨100, "u1", fxTok, 2000⟩

/-- Fixture state with the single live session `fxSess`. -/
def fxSysSess : Sys := ⟨{ fxDb with sessions := [fxSess] }, [], [], 101⟩

/-- C4 witness: the rotation theorem applied at the fixture state at time
1000. -/
theorem refreshTokens_rotates_witness :
    (AuthService.refreshTokens fxCfg fxTok 1000 fxSysSess).1 =
      .ok (AuthService.generateTokens fxCfg fxUser 1000) :=
  (refreshTokens_rotates fxCfg fxTok 1000 fxSysSess fxSess fxUser (by decide) (by decide)
    (by decide) (by decide) (by decide)).1

/-! ## Helper equations for the second-factor verification paths -/

/-- Equation for `verifyTOTP` on an enabled TOTP row with a decryptable
secret. -/
theorem verifyTOTP_eq (cfg : Config) (uid t : String) (now : Nat) (db : Db)
    (ta : TwoFactorAuth) (sb : List Nat)
    (hfta : db.findTwoFactorAuth uid TwoFactorType.TOTP = some ta)
    (hen : ta.enabled = true)
    (hdec : decrypt ta.secret cfg.twoFactorEncryptionKey = .ok sb) :
    TwoFactorService.verifyTOTP cfg uid t now db =
      .ok (speakeasyTotpVerify (bytesToStr sb) t now 2) := by
  simp only [TwoFactorService.verifyTOTP, hfta, hen, Bool.not_true, Bool.false_eq_true,
    if_false, hdec]

/-- Equation for `verifyRecoveryCode` when no stored hash matches. -/
theorem verifyRecoveryCode_none (uid code : String) (db : Db) (ta : TwoFactorAuth)
    (hfta : db.findTwoFactorAuth uid TwoFactorType.TOTP = some ta)
    (hen : ta.enabled = true)
    (hfind : ta.recoveryCodes.find? (fun h => argon2Verify h code) = none) :
    TwoFactorService.verifyRecoveryCode uid code db = (false, db) := by
  simp only [TwoFactorService.verifyRecoveryCode, hfta, hen, Bool.not_true,
    Bool.false_eq_true, if_false, hfind]

/-- Equation for `verifyRecoveryCode` when a stored hash matches: the
first matching hash is removed from the row's stored set. -/
theorem verifyRecoveryCode_some (uid code : String) (db : Db) (ta : TwoFactorAuth)
    (hc : Argon2Hash)
    (hfta : db.findTwoFactorAuth uid TwoFactorType.TOTP = some ta)
    (hen : ta.enabled = true)
    (hfind : ta.recoveryCodes.find? (fun h => argon2Verify h code) = some hc) :
    TwoFactorService.verifyRecoveryCode uid code db =
      (true, { db with twoFactorAuths := db.twoFactorAuths.map (fun a =>
        if a.userId == uid && a.type == TwoFactorType.TOTP then
          { a with recoveryCodes := ta.recoveryCodes.filter (fun c => !(c == hc)) }
        else a) }) := by
  simp only [TwoFactorService.verifyRecoveryCode, hfta, hen, Bool.not_true,
    Bool.false_eq_true, if_false, hfind]

/-- Login with correct credentials, an enabled TOTP factor, no enabled
EMAIL factor and no submitted token returns the TOTP challenge (method
string "google") and leaves the state unchanged. -/
theorem login_totp_challenge_eq (cfg : Config) (dto : LoginDto) (ip : Option String)
    (now r1 r2 : Nat) (sys : Sys) (user : User) (acc : Account) (ta : TwoFactorAuth)
    (hfu : sys.db.findUserByIdentifier dto.identifier = some user)
    (hacc : sys.db.accountOf user.id = some acc)
    (hpw : argon2Verify acc.passwordHash dto.password = true)
    (htotp : (sys.db.twoFactorAuthsOf user.id).find?
        (fun a => a.type == TwoFactorType.TOTP && a.enabled) = some ta)
    (hemail : (sys.db.twoFactorAuthsOf user.id).find?
        (fun a => a.type == TwoFactorType.EMAIL && a.enabled) = none)
    (hno : dto.twoFactorToken = none) :
    AuthService.login cfg dto ip now r1 r2 sys = (.ok (.requires2FA "google"), sys) := by
  simp only [AuthService.login, hfu, hacc, hpw, Bool.not_true, Bool.false_eq_true, if_false,
    hno, htotp, hemail, Option.isSome_some, Option.isSome_none, Bool.true_or, Bool.or_false,
    if_true]

/-- Login with correct credentials, an enabled TOTP factor and a submitted
token that fails both TOTP and recovery-code verification fails with the
invalid-two-factor error, appending only the failure audit row — the email
OTP engine is never consulted, whatever EMAIL factor state the user has. -/
theorem login_totp_token_fail (cfg : Config) (dto : LoginDto) (ip : Option String)
    (now r1 r2 : Nat) (sys : Sys) (user : User) (acc : Account) (ta : TwoFactorAuth)
    (t : String)
    (hfu : sys.db.findUserByIdentifier dto.identifier = some user)
    (hacc : sys.db.accountOf user.id = some acc)
    (hpw : argon2Verify acc.passwordHash dto.password = true)
    (htotp : (sys.db.twoFactorAuthsOf user.id).find?
        (fun a => a.type == TwoFactorType.TOTP && a.enabled) = some ta)
    (htok : dto.twoFactorToken = some t)
    (hvt : TwoFactorService.verifyTOTP cfg user.id t now sys.db = .ok false)
    (hrc : TwoFactorService.verifyRecoveryCode user.id t sys.db = (false, sys.db)) :
    AuthService.login cfg dto ip now r1 r2 sys =
      (.error invalidTwoFactorCodeE,
        AuditLogService.log user.id "2fa_verification_failed" (some "google") false ip
          sys) := by
  simp only [AuthService.login, hfu, hacc, hpw, Bool.not_true, Bool.false_eq_true, if_false,
    htok, htotp, Option.isSome_some, Bool.true_or, if_true,
    AuthService.loginVerify2FA, hvt, hrc]

/-- Login with correct credentials, an enabled TOTP factor and a token that
passes TOTP verification completes as a successful login. -/
theorem login_totp_token_success (cfg : Config) (dto : LoginDto) (ip : Option String)
    (now r1 r2 : Nat) (sys : Sys) (user : User) (acc : Account) (ta : TwoFactorAuth)
    (t : String)
    (hfu : sys.db.findUserByIdentifier dto.identifier = some user)
    (hacc : sys.db.accountOf user.id = some acc)
    (hpw : argon2Verify acc.passwordHash dto.password = true)
    (htotp : (sys.db.twoFactorAuthsOf user.id).find?
        (fun a => a.type == TwoFactorType.TOTP && a.enabled) = some ta)
    (htok : dto.twoFactorToken = some t)
    (hvt : TwoFactorService.verifyTOTP cfg user.id t now sys.db = .ok true) :
    AuthService.login cfg dto ip now r1 r2 sys =
      AuthService.finishLogin cfg user acc dto.identifier ip now
        (AuditLogService.log user.id "2fa_verified" (some "google") true ip sys) := by
  simp only [AuthService.login, hfu, hacc, hpw, Bool.not_true, Bool.false_eq_true, if_false,
    htok, htotp, Option.isSome_some, Bool.true_or, if_true,
    AuthService.loginVerify2FA, hvt]

/-- Login with correct credentials, an enabled TOTP factor and a token that
fails TOTP but matches a recovery code completes as a successful login on
the recovery-updated database, appending the recovery-use and verified
audit rows. -/
theorem login_recovery_token_success (cfg : Config) (dto : LoginDto) (ip : Option String)
    (now r1 r2 : Nat) (sys : Sys) (user : User) (acc : Account) (ta : TwoFactorAuth)
    (t : String) (db2 : Db)
    (hfu : sys.db.findUserByIdentifier dto.identifier = some user)
    (hacc : sys.db.accountOf user.id = some acc)
    (hpw : argon2Verify acc.passwordHash dto.password = true)
    (htotp : (sys.db.twoFactorAuthsOf user.id).find?
        (fun a => a.type == TwoFactorType.TOTP && a.enabled) = some ta)
    (htok : dto.twoFactorToken = some t)
    (hvt : TwoFactorService.verifyTOTP cfg user.id t now sys.db = .ok false)
    (hrc : TwoFactorService.verifyRecoveryCode user.id t sys.db = (true, db2)) :
    AuthService.login cfg dto ip now r1 r2 sys =
      AuthService.finishLogin cfg user acc dto.identifier ip now
        (AuditLogService.log user.id "2fa_verified" (some "google") true ip
          (AuditLogService.log user.id "2fa_recovery_code_used" (some "recovery") true ip
            { sys with db := db2 })) := by
  simp only [AuthService.login, hfu, hacc, hpw, Bool.not_true, Bool.false_eq_true, if_false,
    htok, htotp, Option.isSome_some, Bool.true_or, if_true,
    AuthService.loginVerify2FA, hvt, hrc]

/-! ## Fixtures with an encrypted TOTP secret -/

/-- Fixture encryption key (hex of 32 bytes of 7). -/
def fxKeyHex : List Char := bytesToHex (List.replicate 32 7)

/-- Fixture random IV (16 bytes of 1). -/
def fxIv : List Nat := List.replicate 16 1

/-- Fixture TOTP shared secret (base32 text). -/
def fxSecret : String := "JBSWY3DP"

/-- Fixture encrypted-secret envelope produced by the secret codec. -/
def fxTotpEnv : List Char := ((encrypt (strBytes fxSecret) fxKeyHex fxIv).toOption).getD []

/-- Fixture configuration carrying the fixture encryption key. -/
def fxCfgKey : Config := { fxCfg with twoFactorEncryptionKey := fxKeyHex }

/-- Fixture enabled TOTP row with the encrypted fixture secret and no
recovery codes. -/
def fxTotpAuthEnc : TwoFactorAuth := ⟨"u1", TwoFactorType.TOTP, fxTotpEnv, true, []⟩

/-- Fixture state: one user, enabled TOTP factor (encrypted secret), no
EMAIL factor. -/
def fxSysTotpEnc : Sys := ⟨{ fxDb with twoFactorAuths := [fxTotpAuthEnc] }, [], [], 0⟩

theorem fxKeyHex_len : (hexToBytes fxKeyHex).length = 32 := by
  unfold fxKeyHex
  rw [hexToBytes_bytesToHex (by intro b hb; rw [List.eq_of_mem_replicate hb]; omega)]
  simp

theorem fxTotpEnv_decrypt : decrypt fxTotpEnv fxKeyHex = .ok (strBytes fxSecret) := by
  unfold fxTotpEnv
  exact decrypt_encrypt_roundtrip (strBytes fxSecret) fxIv fxKeyHex (by decide) (by decide)
    (by intro b hb; rw [List.eq_of_mem_replicate hb]; omega) (by decide) fxKeyHex_len

/-- Fixture enabled TOTP row with an unused placeholder secret (the
challenge branch never reads it). -/
def fxTotpAuth : TwoFactorAuth := ⟨"u1", TwoFactorType.TOTP, [], true, []⟩

/-- Fixture state: one user with the placeholder TOTP row. -/
def fxSysTotp : Sys := ⟨{ fxDb with twoFactorAuths := [fxTotpAuth] }, [], [], 0⟩

/-- C3 counterexample: with an enabled TOTP factor and no EMAIL factor, a
correct-credential login without a token answers the challenge with the
method string "google", not "totp" (and leaves the state unchanged). -/
theorem login_totp_challenge_not_totp_string :
    (AuthService.login fxCfg ⟨"a@x.com", "pw", none⟩ none 1000 0 0 fxSysTotp).1 =
      .ok (.requires2FA "google") ∧
    (AuthService.login fxCfg ⟨"a@x.com", "pw", none⟩ none 1000 0 0 fxSysTotp).2 =
      fxSysTotp ∧
    "google" ≠ "totp" :=
  ⟨rfl, rfl, by decide⟩

/-- C3 (amended): for an account with an enabled TOTP factor and no
enabled EMAIL factor, a correct-credential login without a token returns
the 2FA-required response with method "google", issues no tokens and
leaves the whole state (in particular the Session table) unchanged; a
second call supplying a token that passes the time-step check returns the
user with a fresh token pair and appends exactly one Session row bound to
the new refresh token. -/
theorem login_totp_flow (cfg : Config) (dto : LoginDto) (ip : Option String)
    (now r1 r2 : Nat) (sys : Sys) (user : User) (acc : Account) (ta : TwoFactorAuth)
    (hfu : sys.db.findUserByIdentifier dto.identifier = some user)
    (hacc : sys.db.accountOf user.id = some acc)
    (hpw : argon2Verify acc.passwordHash dto.password = true)
    (htotp : (sys.db.twoFactorAuthsOf user.id).find?
        (fun a => a.type == TwoFactorType.TOTP && a.enabled) = some ta)
    (hemail : (sys.db.twoFactorAuthsOf user.id).find?
        (fun a => a.type == TwoFactorType.EMAIL && a.enabled) = none)
    (hno : dto.twoFactorToken = none) :
    AuthService.login cfg dto ip now r1 r2 sys = (.ok (.requires2FA "google"), sys) ∧
    (∀ (t : String) (sb : List Nat),
      sys.db.findTwoFactorAuth user.id TwoFactorType.TOTP = some ta →
      decrypt ta.secret cfg.twoFactorEncryptionKey = .ok sb →
      speakeasyTotpVerify (bytesToStr sb) t now 2 = true →
      (AuthService.login cfg ⟨dto.identifier, dto.password, some t⟩ ip now r1 r2 sys).1 =
        .ok (.success user (AuthService.generateTokens cfg user now)) ∧
      ((AuthService.login cfg ⟨dto.identifier, dto.password, some t⟩ ip now r1 r2
          sys).2).db.sessions =
        sys.db.sessions ++ [⟨sys.nextId, user.id,
          (AuthService.generateTokens cfg user now).refreshToken, now + 7 * 86400⟩]) := by
  constructor
  · exact login_totp_challenge_eq cfg dto ip now r1 r2 sys user acc ta hfu hacc hpw htotp
      hemail hno
  · intro t sb hfta hdec hs
    have hen : ta.enabled = true := by
      have hp := List.find?_some htotp
      simp only [Bool.and_eq_true, beq_iff_eq] at hp
      exact hp.2
    have hvt := verifyTOTP_eq cfg user.id t now sys.db ta sb hfta hen hdec
    rw [hs] at hvt
    have hL := login_totp_token_success cfg ⟨dto.identifier, dto.password, some t⟩ ip now
      r1 r2 sys user acc ta t hfu hacc hpw htotp rfl hvt
    refine ⟨by rw [hL]; rfl, ?_⟩
    rw [hL, sessions_finishLogin, sessions_auditLog]
    rfl

/-- C3 witness: the amended flow applied at the fixture state — the
challenge call and then a second call carrying the valid time-step code
for step 33 (time 1000). -/
theorem login_totp_flow_witness :
    (AuthService.login fxCfgKey ⟨"a@x.com", "pw", some (totpCode "JBSWY3DP" 33)⟩ none
        1000 0 0 fxSysTotpEnc).1 =
      .ok (.success fxUser (AuthService.generateTokens fxCfgKey fxUser 1000)) :=
  ((login_totp_flow fxCfgKey ⟨"a@x.com", "pw", none⟩ none 1000 0 0 fxSysTotpEnc fxUser
      fxAccount fxTotpAuthEnc rfl rfl rfl rfl rfl rfl).2
    (totpCode "JBSWY3DP" 33) (strBytes "JBSWY3DP") rfl fxTotpEnv_decrypt (by decide)).1

/-! ## C2 fixtures: both factors enabled, live email challenge -/

/-- Fixture enabled EMAIL factor row (placeholder secret, as stored by
`enableEmailOTP`). -/
def fxEmailAuth : TwoFactorAuth := ⟨"u1", TwoFactorType.EMAIL, "email".data, true, []⟩

/-- Fixture live email challenge hashing the code "654321". -/
def fxOtpB : EmailOTP := ⟨10, "u1", ⟨1, "654321"⟩, 0, 2000, 900⟩

/-- Fixture state with both factors enabled and the live challenge. -/
def fxSysBoth : Sys :=
  ⟨{ fxDb with twoFactorAuths := [fxTotpAuthEnc, fxEmailAuth], emailOTPs := [fxOtpB] },
    [], [], 11⟩

/-- C2 counterexample: with both a TOTP and an EMAIL factor enabled and a
live email challenge, submitting the correct email OTP code as the
second-factor token makes login fail with the invalid-two-factor error —
email-OTP verification is never attempted when a TOTP factor is enabled —
even though `verifyOTP` accepts that very code on the same state. -/
theorem login_email_code_rejected_when_totp_enabled :
    (AuthService.login fxCfgKey ⟨"a@x.com", "pw", some "654321"⟩ none 1000 0 0
        fxSysBoth).1 = .error invalidTwoFactorCodeE ∧
    (OtpService.verifyOTP fxCfgKey "u1" "654321" 1000 fxSysBoth).1 = .ok true := by
  constructor
  · have hvt := verifyTOTP_eq fxCfgKey "u1" "654321" 1000 fxSysBoth.db fxTotpAuthEnc
      (strBytes fxSecret) rfl rfl fxTotpEnv_decrypt
    rw [show speakeasyTotpVerify (bytesToStr (strBytes fxSecret)) "654321" 1000 2 = false
      from by decide] at hvt
    have hL := login_totp_token_fail fxCfgKey ⟨"a@x.com", "pw", some "654321"⟩ none 1000 0 0
      fxSysBoth fxUser fxAccount fxTotpAuthEnc "654321" rfl rfl rfl rfl rfl hvt
      (verifyRecoveryCode_none "u1" "654321" fxSysBoth.db fxTotpAuthEnc rfl rfl rfl)
    rw [hL]
  · rfl

/-- C2 (amended): when a token is submitted for an identity with an
enabled TOTP factor, verification tries the TOTP code, then the recovery
code, and stops there: if the TOTP code verifies, login succeeds; if not
and a recovery code matches, login succeeds on the recovery-updated
database; if both fail, login fails with InvalidTwoFactorCode without ever
consulting the email-OTP engine — email-OTP verification runs only when no
TOTP factor is enabled. -/
theorem login_second_factor_order (cfg : Config) (dto : LoginDto) (ip : Option String)
    (now r1 r2 : Nat) (sys : Sys) (user : User) (acc : Account) (ta : TwoFactorAuth)
    (t : String)
    (hfu : sys.db.findUserByIdentifier dto.identifier = some user)
    (hacc : sys.db.accountOf user.id = some acc)
    (hpw : argon2Verify acc.passwordHash dto.password = true)
    (htotp : (sys.db.twoFactorAuthsOf user.id).find?
        (fun a => a.type == TwoFactorType.TOTP && a.enabled) = some ta)
    (htok : dto.twoFactorToken = some t) :
    (TwoFactorService.verifyTOTP cfg user.id t now sys.db = .ok true →
      AuthService.login cfg dto ip now r1 r2 sys =
        AuthService.finishLogin cfg user acc dto.identifier ip now
          (AuditLogService.log user.id "2fa_verified" (some "google") true ip sys)) ∧
    (∀ db2 : Db, TwoFactorService.verifyTOTP cfg user.id t now sys.db = .ok false →
      TwoFactorService.verifyRecoveryCode user.id t sys.db = (true, db2) →
      AuthService.login cfg dto ip now r1 r2 sys =
        AuthService.finishLogin cfg user acc dto.identifier ip now
          (AuditLogService.log user.id "2fa_verified" (some "google") true ip
            (AuditLogService.log user.id "2fa_recovery_code_used" (some "recovery") true ip
              { sys with db := db2 }))) ∧
    (TwoFactorService.verifyTOTP cfg user.id t now sys.db = .ok false →
      TwoFactorService.verifyRecoveryCode user.id t sys.db = (false, sys.db) →
      AuthService.login cfg dto ip now r1 r2 sys =
        (.error invalidTwoFactorCodeE,
          AuditLogService.log user.id "2fa_verification_failed" (some "google") false ip
            sys)) :=
  ⟨fun hvt => login_totp_token_success cfg dto ip now r1 r2 sys user acc ta t hfu hacc hpw
      htotp htok hvt,
   fun db2 hvt hrc => login_recovery_token_success cfg dto ip now r1 r2 sys user acc ta t
      db2 hfu hacc hpw htotp htok hvt hrc,
   fun hvt hrc => login_totp_token_fail cfg dto ip now r1 r2 sys user acc ta t hfu hacc hpw
      htotp htok hvt hrc⟩

/-- Helper: on the fixture state, the token "000000" fails TOTP
verification. -/
theorem fx_vt_000000 :
    TwoFactorService.verifyTOTP fxCfgKey "u1" "000000" 1000 fxSysBoth.db = .ok false := by
  have hvt := verifyTOTP_eq fxCfgKey "u1" "000000" 1000 fxSysBoth.db fxTotpAuthEnc
    (strBytes fxSecret) rfl rfl fxTotpEnv_decrypt
  rw [show speakeasyTotpVerify (bytesToStr (strBytes fxSecret)) "000000" 1000 2 = false
    from by decide] at hvt
  exact hvt

/-- C2 witness: the order theorem applied at the fixture state on its
third branch (token "000000" fails TOTP and recovery). -/
theorem login_second_factor_order_witness :
    AuthService.login fxCfgKey ⟨"a@x.com", "pw", some "000000"⟩ none 1000 0 0 fxSysBoth =
      (.error invalidTwoFactorCodeE,
        AuditLogService.log "u1" "2fa_verification_failed" (some "google") false none
          fxSysBoth) :=
  (login_second_factor_order fxCfgKey ⟨"a@x.com", "pw", some "000000"⟩ none 1000 0 0
    fxSysBoth fxUser fxAccount fxTotpAuthEnc "000000" rfl rfl rfl rfl rfl).2.2
    fx_vt_000000
    (verifyRecoveryCode_none "u1" "000000" fxSysBoth.db fxTotpAuthEnc rfl rfl rfl)

/-! ## Map/find commutation helpers used for the post-login state -/

theorem find?_pred_congr {α : Type _} {p q : α → Bool} :
    ∀ (l : List α), (∀ a ∈ l, p a = q a) → l.find? p = l.find? q
  | [], _ => rfl
  | a :: t, h => by
    rw [List.find?_cons, List.find?_cons, h a (List.mem_cons_self a t),
      find?_pred_congr t (fun x hx => h x (List.mem_cons_of_mem a hx))]

theorem find?_map_pres {α : Type _} (f : α → α) (p : α → Bool)
    (l : List α) (h : ∀ a ∈ l, p (f a) = p a) :
    (l.map f).find? p = (l.find? p).map f := by
  rw [List.find?_map]
  exact congrArg (Option.map f) (find?_pred_congr l (fun a ha => h a ha))

theorem filter_map_pres {α : Type _} (f : α → α) (p : α → Bool)
    (l : List α) (h : ∀ a ∈ l, p (f a) = p a) :
    (l.map f).filter p = (l.filter p).map f := by
  rw [List.filter_map]
  exact congrArg (List.map f) (List.filter_congr (fun a ha => h a ha))

/-- C6: recovery codes are single-use.  For an identity with an enabled
TOTP factor whose stored recovery-code set has exactly one hash matching
the submitted code (and the code is not a valid time-step token), a first
login submitting that code succeeds and removes the matching hash from the
stored set, and a second login submitting the same code against the
resulting state fails with the invalid-two-factor error. -/
theorem recovery_code_single_use (cfg : Config) (dto : LoginDto) (ip : Option String)
    (now r1 r2 r3 r4 : Nat) (sys : Sys) (user : User) (acc : Account) (ta : TwoFactorAuth)
    (code : String) (hc : Argon2Hash) (sb : List Nat)
    (hfu : sys.db.findUserByIdentifier dto.identifier = some user)
    (hacc : sys.db.accountOf user.id = some acc)
    (hpw : argon2Verify acc.passwordHash dto.password = true)
    (htotp : (sys.db.twoFactorAuthsOf user.id).find?
        (fun a => a.type == TwoFactorType.TOTP && a.enabled) = some ta)
    (htok : dto.twoFactorToken = some code)
    (hfta : sys.db.findTwoFactorAuth user.id TwoFactorType.TOTP = some ta)
    (hdec : decrypt ta.secret cfg.twoFactorEncryptionKey = .ok sb)
    (hsf : speakeasyTotpVerify (bytesToStr sb) code now 2 = false)
    (hfindc : ta.recoveryCodes.find? (fun h => argon2Verify h code) = some hc)
    (hall : ∀ h ∈ ta.recoveryCodes, argon2Verify h code = true → h = hc) :
    (AuthService.login cfg dto ip now r1 r2 sys).1 =
      .ok (.success user (AuthService.generateTokens cfg user now)) ∧
    ((AuthService.login cfg dto ip now r1 r2 sys).2).db.twoFactorAuths =
      sys.db.twoFactorAuths.map (fun a =>
        if a.userId == user.id && a.type == TwoFactorType.TOTP then
          { a with recoveryCodes := ta.recoveryCodes.filter (fun c => !(c == hc)) }
        else a) ∧
    (AuthService.login cfg dto ip now r3 r4
        ((AuthService.login cfg dto ip now r1 r2 sys).2)).1 =
      .error invalidTwoFactorCodeE := by
  have hen : ta.enabled = true := by
    have hp := List.find?_some htotp
    simp only [Bool.and_eq_true, beq_iff_eq] at hp
    exact hp.2
  have htaq : (ta.userId == user.id) = true := by
    have hm := List.mem_of_find?_eq_some htotp
    unfold Db.twoFactorAuthsOf at hm
    exact (List.mem_filter.mp hm).2
  have htat : (ta.type == TwoFactorType.TOTP) = true := by
    have hp := List.find?_some htotp
    simp only [Bool.and_eq_true] at hp
    exact hp.1
  have hvt : TwoFactorService.verifyTOTP cfg user.id code now sys.db = .ok false := by
    have h := verifyTOTP_eq cfg user.id code now sys.db ta sb hfta hen hdec
    rw [hsf] at h
    exact h
  have hrcT := verifyRecoveryCode_some user.id code sys.db ta hc hfta hen hfindc
  have hL1 := login_recovery_token_success cfg dto ip now r1 r2 sys user acc ta code _
    hfu hacc hpw htotp htok hvt hrcT
  refine ⟨by rw [hL1]; rfl, by rw [hL1]; rfl, ?_⟩
  -- facts about the state after the first login
  have hfu2 : ((AuthService.login cfg dto ip now r1 r2 sys).2).db.findUserByIdentifier
      dto.identifier = some user := by
    rw [hL1]
    exact hfu
  have hacc2 : ((AuthService.login cfg dto ip now r1 r2 sys).2).db.accountOf user.id =
      some { acc with lastLoginAt := some now } := by
    rw [hL1]
    show (sys.db.accounts.map (fun a =>
        if a.id == acc.id then { a with lastLoginAt := some now } else a)).find?
        (fun a => a.userId == user.id) = some { acc with lastLoginAt := some now }
    rw [find?_map_pres _ _ _ (by
      intro a _
      by_cases h : (a.id == acc.id) = true
      · simp only [h, if_true]
      · simp only [h, Bool.false_eq_true, if_false])]
    unfold Db.accountOf at hacc
    rw [hacc]
    simp only [Option.map_some', beq_self_eq_true, if_true]
  set ta2 : TwoFactorAuth :=
    { ta with recoveryCodes := ta.recoveryCodes.filter (fun c => !(c == hc)) } with hta2
  have hMta : (if ta.userId == user.id && ta.type == TwoFactorType.TOTP then
      { ta with recoveryCodes := ta.recoveryCodes.filter (fun c => !(c == hc)) }
      else ta) = ta2 := by
    rw [htaq, htat, if_pos (show (true && true) = true from rfl)]
  have hpres2fa : ∀ (p : TwoFactorAuth → Bool),
      (∀ b : TwoFactorAuth,
        p { b with recoveryCodes := ta.recoveryCodes.filter (fun c => !(c == hc)) } = p b) →
      ∀ a ∈ sys.db.twoFactorAuths,
        p (if a.userId == user.id && a.type == TwoFactorType.TOTP then
          { a with recoveryCodes := ta.recoveryCodes.filter (fun c => !(c == hc)) }
          else a) = p a := by
    intro p hp a _
    by_cases h : (a.userId == user.id && a.type == TwoFactorType.TOTP) = true
    · rw [h]
      simp only [if_true]
      exact hp a
    · rw [Bool.not_eq_true] at h
      rw [h]
      simp only [Bool.false_eq_true, if_false]
  have htotp2 : (((AuthService.login cfg dto ip now r1 r2 sys).2).db.twoFactorAuthsOf
      user.id).find? (fun a => a.type == TwoFactorType.TOTP && a.enabled) = some ta2 := by
    rw [hL1]
    show ((sys.db.twoFactorAuths.map (fun a =>
        if a.userId == user.id && a.type == TwoFactorType.TOTP then
          { a with recoveryCodes := ta.recoveryCodes.filter (fun c => !(c == hc)) }
          else a)).filter (fun a => a.userId == user.id)).find?
        (fun a => a.type == TwoFactorType.TOTP && a.enabled) = some ta2
    rw [filter_map_pres (fun a =>
        if a.userId == user.id && a.type == TwoFactorType.TOTP then
          { a with recoveryCodes := ta.recoveryCodes.filter (fun c => !(c == hc)) }
        else a)
      (fun a => a.userId == user.id) sys.db.twoFactorAuths
      (hpres2fa (fun a => a.userId == user.id) (fun b => rfl))]
    rw [find?_map_pres (fun a =>
        if a.userId == user.id && a.type == TwoFactorType.TOTP then
          { a with recoveryCodes := ta.recoveryCodes.filter (fun c => !(c == hc)) }
        else a)
      (fun a => a.type == TwoFactorType.TOTP && a.enabled)
      (sys.db.twoFactorAuths.filter (fun a => a.userId == user.id))
      (fun a ha => hpres2fa (fun a => a.type == TwoFactorType.TOTP && a.enabled)
        (fun b => rfl) a (List.mem_of_mem_filter ha))]
    have : (sys.db.twoFactorAuthsOf user.id).find?
        (fun a => a.type == TwoFactorType.TOTP && a.enabled) = some ta := htotp
    unfold Db.twoFactorAuthsOf at this
    rw [this, Option.map_some', hMta]
  have hfta2 : ((AuthService.login cfg dto ip now r1 r2 sys).2).db.findTwoFactorAuth
      user.id TwoFactorType.TOTP = some ta2 := by
    rw [hL1]
    show (sys.db.twoFactorAuths.map (fun a =>
        if a.userId == user.id && a.type == TwoFactorType.TOTP then
          { a with recoveryCodes := ta.recoveryCodes.filter (fun c => !(c == hc)) }
          else a)).find?
        (fun a => a.userId == user.id && a.type == TwoFactorType.TOTP) = some ta2
    rw [find?_map_pres (fun a =>
        if a.userId == user.id && a.type == TwoFactorType.TOTP then
          { a with recoveryCodes := ta.recoveryCodes.filter (fun c => !(c == hc)) }
        else a)
      (fun a => a.userId == user.id && a.type == TwoFactorType.TOTP)
      sys.db.twoFactorAuths
      (hpres2fa (fun a => a.userId == user.id && a.type == TwoFactorType.TOTP)
        (fun b => rfl))]
    unfold Db.findTwoFactorAuth at hfta
    rw [hfta, Option.map_some', hMta]
  have hen2 : ta2.enabled = true := hen
  have hdec2 : decrypt ta2.secret cfg.twoFactorEncryptionKey = .ok sb := hdec
  have hvt2 : TwoFactorService.verifyTOTP cfg user.id code now
      ((AuthService.login cfg dto ip now r1 r2 sys).2).db = .ok false := by
    have h := verifyTOTP_eq cfg user.id code now
      ((AuthService.login cfg dto ip now r1 r2 sys).2).db ta2 sb hfta2 hen2 hdec2
    rw [hsf] at h
    exact h
  have hnone2 : ta2.recoveryCodes.find? (fun h => argon2Verify h code) = none := by
    rw [List.find?_eq_none]
    intro x hx hver
    rw [hta2] at hx
    simp only [List.mem_filter, Bool.not_eq_eq_eq_not, Bool.not_true, beq_eq_false_iff_ne,
      ne_eq] at hx
    exact hx.2 (hall x hx.1 hver)
  have hrc2 : TwoFactorService.verifyRecoveryCode user.id code
      ((AuthService.login cfg dto ip now r1 r2 sys).2).db =
      (false, ((AuthService.login cfg dto ip now r1 r2 sys).2).db) :=
    verifyRecoveryCode_none user.id code _ ta2 hfta2 hen2 hnone2
  have hpw2 : argon2Verify ({ acc with lastLoginAt := some now } : Account).passwordHash
      dto.password = true := hpw
  rw [login_totp_token_fail cfg dto ip now r3 r4
    ((AuthService.login cfg dto ip now r1 r2 sys).2) user
    { acc with lastLoginAt := some now } ta2 code hfu2 hacc2 hpw2 htotp2 htok hvt2 hrc2]

/-- Fixture stored recovery-code hash for the code "ABCD1234". -/
def fxRecHash : Argon2Hash := ⟨3, "ABCD1234"⟩

/-- Fixture enabled TOTP row with the encrypted secret and one stored
recovery code. -/
def fxTotpAuthRec : TwoFactorAuth := ⟨"u1", TwoFactorType.TOTP, fxTotpEnv, true, [fxRecHash]⟩

/-- Fixture state for the recovery-code scenario. -/
def fxSysRec : Sys := ⟨{ fxDb with twoFactorAuths := [fxTotpAuthRec] }, [], [], 0⟩

/-- C6 witness: the single-use theorem applied at the fixture state — the
first login with the recovery code succeeds, the second fails. -/
theorem recovery_code_single_use_witness :
    (AuthService.login fxCfgKey ⟨"a@x.com", "pw", some "ABCD1234"⟩ none 1000 0 0
        fxSysRec).1 =
      .ok (.success fxUser (AuthService.generateTokens fxCfgKey fxUser 1000)) ∧
    (AuthService.login fxCfgKey ⟨"a@x.com", "pw", some "ABCD1234"⟩ none 1000 0 0
        ((AuthService.login fxCfgKey ⟨"a@x.com", "pw", some "ABCD1234"⟩ none 1000 0 0
          fxSysRec).2)).1 =
      .error invalidTwoFactorCodeE := by
  have h := recovery_code_single_use fxCfgKey ⟨"a@x.com", "pw", some "ABCD1234"⟩ none
    1000 0 0 0 0 fxSysRec fxUser fxAccount fxTotpAuthRec "ABCD1234" fxRecHash
    (strBytes fxSecret) rfl rfl rfl rfl rfl rfl fxTotpEnv_decrypt (by decide) rfl
    (by decide)
  exact ⟨h.1, h.2.2⟩

/-- C7 counterexample: encrypting the empty plaintext succeeds, but
decrypting the resulting envelope with the very key that produced it fails
with the malformed-format error — the empty hex ciphertext part is falsy
in the `if (!ivHex || !authTagHex || !encrypted)` check. -/
theorem secretCodec_empty_plaintext_fails :
    (encrypt [] fxKeyHex fxIv).toOption ≠ none ∧
    decrypt ((encrypt [] fxKeyHex fxIv).toOption.getD []) fxKeyHex =
      .error "Invalid encrypted text format" := by
  constructor
  · rw [encrypt_ok [] fxKeyHex fxIv fxKeyHex_len]
    simp [Except.toOption]
  · exact decrypt_encrypt_empty fxIv fxKeyHex
      (by intro b hb; rw [List.eq_of_mem_replicate hb]; omega) fxKeyHex_len

/-- C7 (amended): for every NONEMPTY plaintext, 32-byte key and nonempty
IV, decrypting the envelope produced by `encrypt` with the same key
returns the original plaintext; decrypting it with any other 32-byte key
fails with the authentication error, as does decrypting an envelope whose
ciphertext part or tag part has been replaced by anything other than the
genuine value.  (The empty plaintext is the boundary case the original
claim missed: its envelope is rejected as malformed.) -/
theorem secretCodec_roundtrip_auth
    (pt iv : List Nat) (keyHex keyHex2 : List Char)
    (hpt : ∀ b ∈ pt, b < 256) (hpt0 : pt ≠ [])
    (hiv : ∀ b ∈ iv, b < 256) (hiv0 : iv ≠ [])
    (hkey : (hexToBytes keyHex).length = 32)
    (hkey2 : (hexToBytes keyHex2).length = 32)
    (hne : hexToBytes keyHex2 ≠ hexToBytes keyHex) :
    decrypt ((encrypt pt keyHex iv).toOption.getD []) keyHex = .ok pt ∧
    decrypt ((encrypt pt keyHex iv).toOption.getD []) keyHex2 =
      .error "Unsupported state or unable to authenticate data" ∧
    (∀ ct2 : List Nat, (∀ b ∈ ct2, b < 256) → ct2 ≠ [] →
      ct2 ≠ gcmMaskFrom (hexToBytes keyHex) iv 0 pt →
      decrypt (bytesToHex iv ++ (':' :: (bytesToHex (gcmTag (hexToBytes keyHex) iv
          (gcmMaskFrom (hexToBytes keyHex) iv 0 pt)) ++ (':' :: bytesToHex ct2))))
        keyHex =
        .error "Unsupported state or unable to authenticate data") ∧
    (∀ tag2 : List Nat, (∀ b ∈ tag2, b < 256) → tag2 ≠ [] →
      tag2 ≠ gcmTag (hexToBytes keyHex) iv (gcmMaskFrom (hexToBytes keyHex) iv 0 pt) →
      decrypt (bytesToHex iv ++ (':' :: (bytesToHex tag2 ++ (':' ::
          bytesToHex (gcmMaskFrom (hexToBytes keyHex) iv 0 pt))))) keyHex =
        .error "Unsupported state or unable to authenticate data") := by
  have hctb := gcmMaskFrom_lt (hexToBytes keyHex) iv 0 pt
  have hct0 : gcmMaskFrom (hexToBytes keyHex) iv 0 pt ≠ [] := by
    rw [Ne, gcmMaskFrom_eq_nil_iff]
    exact hpt0
  refine ⟨decrypt_encrypt_roundtrip pt iv keyHex hpt hpt0 hiv hiv0 hkey, ?_, ?_, ?_⟩
  · rw [encrypt_ok pt keyHex iv hkey]
    show decrypt (bytesToHex iv ++ (':' :: (_ ++ (':' :: _)))) keyHex2 = _
    rw [decrypt_envelope _ _ _ _ hiv (gcmTag_lt _ _ _) hctb hiv0 (gcmTag_ne_nil _ _ _) hct0]
    rw [if_neg (by omega)]
    rw [if_neg (by
      intro heq
      obtain ⟨hk, _, _⟩ := gcmTag_inj (hexToBytes_lt keyHex) hiv hctb
        (hexToBytes_lt keyHex2) hiv hctb heq
      exact hne hk.symm)]
  · intro ct2 h1 h2 h3
    rw [decrypt_envelope _ _ _ _ hiv (gcmTag_lt _ _ _) h1 hiv0 (gcmTag_ne_nil _ _ _) h2]
    rw [if_neg (by omega)]
    rw [if_neg (by
      intro heq
      obtain ⟨_, _, hc⟩ := gcmTag_inj (hexToBytes_lt keyHex) hiv hctb
        (hexToBytes_lt keyHex) hiv h1 heq
      exact h3 hc.symm)]
  · intro tag2 h1 h2 h3
    rw [decrypt_envelope _ _ _ _ hiv h1 hctb hiv0 h2 hct0]
    rw [if_neg (by omega)]
    rw [if_neg h3]

/-- Fixture second key (hex of 32 bytes of 9), distinct from `fxKeyHex`. -/
def fxKeyHex2 : List Char := bytesToHex (List.replicate 32 9)

theorem fxKeyHex2_len : (hexToBytes fxKeyHex2).length = 32 := by
  unfold fxKeyHex2
  rw [hexToBytes_bytesToHex (by intro b hb; rw [List.eq_of_mem_replicate hb]; omega)]
  simp

/-- C7 witness: the amended roundtrip applied to the plaintext bytes
[104, 105] under the fixture key and IV. -/
theorem secretCodec_roundtrip_auth_witness :
    decrypt ((encrypt [104, 105] fxKeyHex fxIv).toOption.getD []) fxKeyHex =
      .ok [104, 105] :=
  (secretCodec_roundtrip_auth [104, 105] fxIv fxKeyHex fxKeyHex2 (by decide) (by decide)
    (by decide) (by decide) fxKeyHex_len fxKeyHex2_len
    (by
      unfold fxKeyHex fxKeyHex2
      rw [hexToBytes_bytesToHex (by intro b hb; rw [List.eq_of_mem_replicate hb]; omega),
        hexToBytes_bytesToHex (by intro b hb; rw [List.eq_of_mem_replicate hb]; omega)]
      decide)).1

end Portfolio
